import Mathlib

/-!
# Schema-driven field data (helper/schema/field_data.go)

A shallow embedding of `FieldData` and its four methods `Validate`, `Get`,
`GetOk`, `GetOkErr` (plus the private `getPrimitive`), followed by theorems
about them.

Conventions of the embedding

* A Go `interface{}` is a `Value`; the nil interface is `Value.nil`.  A typed
  result stored into an interface (`bool`, `int`, `string`,
  `map[string]interface{}`) is never the nil interface, also when the map
  itself is a nil map: that one is `Value.map none`.
* A Go map is the list of its entries; `d.Raw[k]` is `List.lookup`, and
  `range d.Raw` walks the list front to back.
* A Go panic is `Outcome.panic`, a normal return `Outcome.ret`.
* A Go `error` result is `Option GoError`, `none` being the nil error.
* `mapstructure.WeakDecode` is an external library; every function takes the
  decoder as its first argument.
-/

namespace Schema

/-! ## Data model -/

/-- A Go `interface{}` value. `nil` is the nil interface; `map none` is a nil
map held in a non-nil interface. `int n` stands for a Go `int`: the accessor
does no arithmetic on it, and its 64-bit range is not modelled. -/
inductive Value where
  | nil
  | bool (b : Bool)
  | int (n : Int)
  | str (s : String)
  | list (xs : List Value)
  | map (m : Option (List (String × Value)))

/-- The Go test `v == nil` on an interface value. -/
def Value.isNil : Value → Bool
  | .nil => true
  | _ => false

/-- Modelled from the spec: the type `FieldType` and its constants are declared
outside field_data.go. The four recognised tags are the ones the source
switches on; every other tag a descriptor may carry is `unrecognised`. -/
inductive FieldType where
  | TypeBool
  | TypeInt
  | TypeString
  | TypeMap
  | unrecognised (tag : Nat)
  deriving DecidableEq

/-- The test `case TypeBool, TypeInt, TypeMap, TypeString:` of the two type
switches in `Validate` and `GetOkErr`; `default:` is its negation. -/
def FieldType.recognised : FieldType → Bool
  | .TypeBool => true
  | .TypeInt => true
  | .TypeMap => true
  | .TypeString => true
  | .unrecognised _ => false

/-- Modelled from the spec: the struct `FieldSchema` is declared outside
field_data.go. A descriptor is a declared type (the Go field `Type`, here
`Typ`) and a default; as the Go field is an `interface{}`, a default that was
not set is `Value.nil`. -/
structure FieldSchema where
  Typ : FieldType
  Default : Value

/-- The non-nil `error` values of field_data.go.
* `unknownField k`: `fmt.Errorf("unknown field: %s", k)`
* `unknownFieldType t k`: `fmt.Errorf("unknown field type %s for field %s", t, k)`
* `convertingInput v f`: `fmt.Errorf("Error converting input %v for field %s", v, f)`
* `decode msg`: the error `mapstructure.WeakDecode` returned, passed on as is. -/
inductive GoError where
  | unknownField (k : String)
  | unknownFieldType (t : FieldType) (k : String)
  | convertingInput (value : Value) (field : String)
  | decode (msg : String)

/-- What a Go panic carries.
* `fieldNotInSchema k`: `panic(fmt.Sprintf("field %s not in the schema", k))`
* `errorReading k err`: `panic(fmt.Sprintf("error reading %s: %s", k, err))`
* `unknownType t`: `panic(fmt.Sprintf("Unknown type: %s", schema.Type))`
* `noZeroValue t`: no zero value exists for the tag. -/
inductive PanicMsg where
  | fieldNotInSchema (k : String)
  | errorReading (k : String) (err : GoError)
  | unknownType (t : FieldType)
  | noZeroValue (t : FieldType)

/-- A Go computation: it returns a value or it panics. -/
inductive Outcome (α : Type) where
  | ret (a : α)
  | panic (p : PanicMsg)

/-- The computation returned normally. -/
def Outcome.returns {α : Type} : Outcome α → Bool
  | .ret _ => true
  | .panic _ => false

/-- The computation panicked. -/
def Outcome.panics {α : Type} : Outcome α → Bool
  | .ret _ => false
  | .panic _ => true

/-- The external `mapstructure.WeakDecode`, one function per target variable
type used in `getPrimitive` (`bool`, `int`, `string`,
`map[string]interface{}`): it fills the target or returns an error. -/
structure WeakDecoder where
  toBool : Value → Except String Bool
  toInt : Value → Except String Int
  toStr : Value → Except String String
  toMap : Value → Except String (Option (List (String × Value)))

/-- The struct `FieldData`. The Go Schema maps a key to a `*FieldSchema`; the
entries here are descriptors, so every pointer of the Go map is taken to be
non-nil. -/
structure FieldData where
  Raw : List (String × Value)
  Schema : List (String × FieldSchema)

/-! ## Descriptor defaults -/

/-- Modelled from the spec: `FieldType.Zero` is declared outside field_data.go.
The natural zero value of the declared type: false, 0, "", the empty mapping.
The spec names no zero value for a tag outside the four, so none is returned
there. -/
def FieldType.Zero : FieldType → Outcome Value
  | .TypeBool => .ret (.bool false)
  | .TypeInt => .ret (.int 0)
  | .TypeString => .ret (.str "")
  | .TypeMap => .ret (.map (some []))
  | .unrecognised tag => .panic (.noZeroValue (.unrecognised tag))

/-- Modelled from the spec: `FieldSchema.DefaultOrZero` is declared outside
field_data.go. It returns the declared default if one was set, otherwise the
zero value of the declared type. -/
def FieldSchema.DefaultOrZero (s : FieldSchema) : Outcome Value :=
  match s.Default with
  | .nil => s.Typ.Zero
  | v => .ret v

/-! ## The methods of FieldData -/

/-- The private method `getPrimitive`: value, presence flag, error. -/
def getPrimitive (dec : WeakDecoder) (d : FieldData) (k : String) (schema : FieldSchema) :
    Outcome (Value × Bool × Option GoError) :=
  match d.Raw.lookup k with
  | none => .ret (.nil, false, none)
  | some raw =>
    match schema.Typ with
    | .TypeBool =>
      match dec.toBool raw with
      | .error e => .ret (.nil, true, some (.decode e))
      | .ok result => .ret (.bool result, true, none)
    | .TypeInt =>
      match dec.toInt raw with
      | .error e => .ret (.nil, true, some (.decode e))
      | .ok result => .ret (.int result, true, none)
    | .TypeString =>
      match dec.toStr raw with
      | .error e => .ret (.nil, true, some (.decode e))
      | .ok result => .ret (.str result, true, none)
    | .TypeMap =>
      match dec.toMap raw with
      | .error e => .ret (.nil, true, some (.decode e))
      | .ok result => .ret (.map result, true, none)
    | .unrecognised tag => .panic (.unknownType (.unrecognised tag))

/-- The method `GetOkErr`. -/
def GetOkErr (dec : WeakDecoder) (d : FieldData) (k : String) :
    Outcome (Value × Bool × Option GoError) :=
  match d.Schema.lookup k with
  | none => .ret (.nil, false, some (.unknownField k))
  | some schema =>
    if schema.Typ.recognised then getPrimitive dec d k schema
    else .ret (.nil, false, some (.unknownFieldType schema.Typ k))

/-- The method `GetOk`. -/
def GetOk (dec : WeakDecoder) (d : FieldData) (k : String) : Outcome (Value × Bool) :=
  match d.Schema.lookup k with
  | none => .ret (.nil, false)
  | some schema =>
    match GetOkErr dec d k with
    | .panic p => .panic p
    | .ret (_, _, some err) => .panic (.errorReading k err)
    | .ret (result, ok, none) =>
      if ok && result.isNil then
        match schema.DefaultOrZero with
        | .panic p => .panic p
        | .ret result => .ret (result, ok)
      else .ret (result, ok)

/-- The method `Get`. -/
def Get (dec : WeakDecoder) (d : FieldData) (k : String) : Outcome Value :=
  match d.Schema.lookup k with
  | none => .panic (.fieldNotInSchema k)
  | some schema =>
    match GetOk dec d k with
    | .panic p => .panic p
    | .ret (value, ok) =>
      if !ok then schema.DefaultOrZero else .ret value

/-- The loop of `Validate` over the entries still to visit. -/
def validateLoop (dec : WeakDecoder) (d : FieldData) :
    List (String × Value) → Outcome (Option GoError)
  | [] => .ret none
  | (field, value) :: rest =>
    match d.Schema.lookup field with
    | none => validateLoop dec d rest
    | some schema =>
      if schema.Typ.recognised then
        match getPrimitive dec d field schema with
        | .panic p => .panic p
        | .ret (_, _, some _) => .ret (some (.convertingInput value field))
        | .ret (_, _, none) => validateLoop dec d rest
      else .ret (some (.unknownFieldType schema.Typ field))

/-- The method `Validate`. -/
def Validate (dec : WeakDecoder) (d : FieldData) : Outcome (Option GoError) :=
  validateLoop dec d d.Raw

/-! ## Vocabulary of the statements -/

/-- The weak decode of a raw value to a declared type, seen as one function:
the typed target of `getPrimitive` stored into an interface value. There is no
decode to a tag outside the four. -/
def WeakDecoder.decodeAs (dec : WeakDecoder) (t : FieldType) (raw : Value) :
    Option (Except String Value) :=
  match t with
  | .TypeBool => some ((dec.toBool raw).map Value.bool)
  | .TypeInt => some ((dec.toInt raw).map Value.int)
  | .TypeString => some ((dec.toStr raw).map Value.str)
  | .TypeMap => some ((dec.toMap raw).map Value.map)
  | .unrecognised _ => none

/-- The raw value coerces to the declared type: the type is one of the four
and the weak decode succeeds. -/
def WeakDecoder.coerces (dec : WeakDecoder) (t : FieldType) (raw : Value) : Bool :=
  match dec.decodeAs t raw with
  | some (.ok _) => true
  | _ => false

/-! ## A concrete decoder, to run the methods on concrete records -/

/-- Value of a run of decimal digits, most significant first. -/
def parseDigits : List Char → Nat → Option Nat
  | [], acc => some acc
  | c :: cs, acc => if c.isDigit then parseDigits cs (10 * acc + (c.toNat - 48)) else none

/-- A decimal integer with an optional sign. -/
def parseInt (s : String) : Option Int :=
  match s.data with
  | [] => none
  | '-' :: c :: cs => (parseDigits (c :: cs) 0).map (fun n => -(n : Int))
  | '+' :: c :: cs => (parseDigits (c :: cs) 0).map (fun n => (n : Int))
  | cs => (parseDigits cs 0).map (fun n => (n : Int))

/-- Modelled from the spec: the coercion backend (`mapstructure.WeakDecode`)
is not under src/. One decoder with the minimum the accessor asks of it:
truthy forms to bool, numeric and numeric-string forms to int (a non-numeric
string is an error), scalars to string, a string-keyed mapping passed through.
A nil input leaves the target at its zero value. -/
def sampleDecoder : WeakDecoder where
  toBool
    | .nil => .ok false
    | .bool b => .ok b
    | .int n => .ok (n != 0)
    | .str s =>
      if s ∈ ["1", "t", "T", "true", "TRUE", "True"] then .ok true
      else if s ∈ ["", "0", "f", "F", "false", "FALSE", "False"] then .ok false
      else .error "cannot parse as bool"
    | _ => .error "expected type bool"
  toInt
    | .nil => .ok 0
    | .bool b => .ok (if b then 1 else 0)
    | .int n => .ok n
    | .str s =>
      match parseInt s with
      | some n => .ok n
      | none => .error "cannot parse as int"
    | _ => .error "expected type int"
  toStr
    | .nil => .ok ""
    | .bool b => .ok (if b then "1" else "0")
    | .int n => .ok (toString n)
    | .str s => .ok s
    | _ => .error "expected type string"
  toMap
    | .nil => .ok none
    | .map m => .ok m
    | _ => .error "expected a map"

/-- Schema with a Bool field "enabled" whose default is false; empty Raw. -/
def exEnabled : FieldData :=
  { Raw := [], Schema := [("enabled", { Typ := .TypeBool, Default := .bool false })] }

/-- Schema with a String field "name" without default; Raw holds "other". -/
def exName : FieldData :=
  { Raw := [("other", .int 1)], Schema := [("name", { Typ := .TypeString, Default := .nil })] }

/-- Schema with an Int field "count"; Raw holds the integer 7 for it. -/
def exCount : FieldData :=
  { Raw := [("count", .int 7)], Schema := [("count", { Typ := .TypeInt, Default := .nil })] }

/-- Schema with an Int field "count"; Raw holds a list for it. -/
def exBadCount : FieldData :=
  { Raw := [("count", .list [])], Schema := [("count", { Typ := .TypeInt, Default := .nil })] }

/-- Schema with a field "blob" of an unrecognised type; empty Raw. -/
def exBlob : FieldData :=
  { Raw := [], Schema := [("blob", { Typ := .unrecognised 0, Default := .nil })] }

/-- Schema with a field "blob" of an unrecognised type; Raw holds a value for it. -/
def exBlobSet : FieldData :=
  { Raw := [("blob", .int 1)], Schema := [("blob", { Typ := .unrecognised 0, Default := .nil })] }

/-- Schema with a Map field "tags"; Raw holds the nil value for it. -/
def exNilMap : FieldData :=
  { Raw := [("tags", .nil)], Schema := [("tags", { Typ := .TypeMap, Default := .nil })] }

/-! ## Further vocabulary: iteration, map updates, typed values -/

/-- `Validate` when `range d.Raw` yields the entries in the order `order`. -/
def ValidateIn (dec : WeakDecoder) (d : FieldData) (order : List (String × Value)) :
    Outcome (Option GoError) :=
  validateLoop dec d order

/-- A Go map holds one entry per key. -/
def FieldData.rawIsMap (d : FieldData) : Prop :=
  (d.Raw.map Prod.fst).Nodup

/-- The Go statement `d.Raw[u] = v`. -/
def FieldData.setRaw (d : FieldData) (u : String) (v : Value) : FieldData :=
  { Raw := (u, v) :: d.Raw.filter (fun e => e.1 != u), Schema := d.Schema }

/-- The Go statement `delete(d.Raw, u)`. -/
def FieldData.deleteRaw (d : FieldData) (u : String) : FieldData :=
  { Raw := d.Raw.filter (fun e => e.1 != u), Schema := d.Schema }

/-- The same record with the key `f` taken out of Schema. -/
def FieldData.deleteSchema (d : FieldData) (f : String) : FieldData :=
  { Raw := d.Raw, Schema := d.Schema.filter (fun e => e.1 != f) }

/-- The value is of the Go type a declared type stands for: a bool, an int, a
string, a string-keyed mapping. -/
def Value.hasType : FieldType → Value → Bool
  | .TypeBool, .bool _ => true
  | .TypeInt, .int _ => true
  | .TypeString, .str _ => true
  | .TypeMap, .map _ => true
  | _, _ => false

/-- Modelled from the spec: the coercion backend is not under src/. What the
round-trip property asks of it: a boolean, an integer, a string and the empty
mapping, decoded to their own type, come back unchanged. -/
structure WeakDecoder.RoundTrips (dec : WeakDecoder) : Prop where
  bool : ∀ b : Bool, dec.toBool (.bool b) = .ok b
  int : ∀ n : Int, dec.toInt (.int n) = .ok n
  str : ∀ s : String, dec.toStr (.str s) = .ok s
  emptyMap : dec.toMap (.map (some [])) = .ok (some [])

/-- The record with one declared field `k` of type `t`, without default, whose
Raw holds `raw` for it. -/
def single (k : String) (t : FieldType) (raw : Value) : FieldData :=
  { Raw := [(k, raw)], Schema := [(k, { Typ := t, Default := .nil })] }

/-- Two Int fields "a" and "b"; the raw value of "a" is a list, that of "b" the
string "x": neither converts. -/
def exTwoBad : FieldData :=
  { Raw := [("a", .list []), ("b", .str "x")],
    Schema := [("a", { Typ := .TypeInt, Default := .nil }),
               ("b", { Typ := .TypeInt, Default := .nil })] }

/-- A Bool field "on" with default true; Raw holds false for it. -/
def exOff : FieldData :=
  { Raw := [("on", .bool false)], Schema := [("on", { Typ := .TypeBool, Default := .bool true })] }

/-- A field "blob" of an unrecognised type and an Int field "count"; Raw holds
a bad value for "count" only. -/
def exBlobAndBad : FieldData :=
  { Raw := [("count", .list [])],
    Schema := [("blob", { Typ := .unrecognised 0, Default := .nil }),
               ("count", { Typ := .TypeInt, Default := .nil })] }

/-- The value is nil as a Go value: the nil interface, or a nil map held in an
interface. Only the first makes the Go test `v == nil` on the interface true. -/
def Value.isNilValue : Value → Bool
  | .nil => true
  | .map none => true
  | _ => false

/-- A Map field "tags" with a declared default; Raw holds the nil value for it. -/
def exNilMapDefault : FieldData :=
  { Raw := [("tags", .nil)],
    Schema := [("tags", { Typ := .TypeMap, Default := .map (some [("a", .int 1)]) })] }

/-- Two Int fields "a" and "count"; Raw holds a list for "a" and the string
"abc" for "count": neither converts, and "a" is visited first. -/
def exTwoCount : FieldData :=
  { Raw := [("a", .list []), ("count", .str "abc")],
    Schema := [("a", { Typ := .TypeInt, Default := .nil }),
               ("count", { Typ := .TypeInt, Default := .nil })] }

/-- The same two Int fields, "count" visited first. -/
def exCountFirst : FieldData :=
  { Raw := [("count", .str "abc"), ("a", .list [])],
    Schema := [("a", { Typ := .TypeInt, Default := .nil }),
               ("count", { Typ := .TypeInt, Default := .nil })] }

/-! ## Basic facts about the embedding -/

theorem decodeAs_recognised (dec : WeakDecoder) (t : FieldType) (raw : Value) :
    t.recognised = true ↔ ∃ r, dec.decodeAs t raw = some r := by
  cases t <;> simp [FieldType.recognised, WeakDecoder.decodeAs]

theorem coerces_iff (dec : WeakDecoder) (t : FieldType) (raw : Value) :
    dec.coerces t raw = true ↔ ∃ v, dec.decodeAs t raw = some (.ok v) := by
  unfold WeakDecoder.coerces
  cases h : dec.decodeAs t raw with
  | none => simp
  | some r => cases r <;> simp

theorem decodeAs_ok_not_nil {dec : WeakDecoder} {t : FieldType} {raw v : Value}
    (h : dec.decodeAs t raw = some (.ok v)) : v.isNil = false := by
  cases t <;> simp only [WeakDecoder.decodeAs, Option.some.injEq] at h
  · cases hb : dec.toBool raw <;> rw [hb] at h <;> simp [Except.map] at h
    subst h; rfl
  · cases hb : dec.toInt raw <;> rw [hb] at h <;> simp [Except.map] at h
    subst h; rfl
  · cases hb : dec.toStr raw <;> rw [hb] at h <;> simp [Except.map] at h
    subst h; rfl
  · cases hb : dec.toMap raw <;> rw [hb] at h <;> simp [Except.map] at h
    subst h; rfl
  · cases h

theorem getPrimitive_absent (dec : WeakDecoder) {d : FieldData} {k : String}
    (s : FieldSchema) (hr : d.Raw.lookup k = none) :
    getPrimitive dec d k s = .ret (.nil, false, none) := by
  simp [getPrimitive, hr]

theorem getPrimitive_error {dec : WeakDecoder} {d : FieldData} {k : String}
    {s : FieldSchema} {raw : Value} {e : String} (hr : d.Raw.lookup k = some raw)
    (h : dec.decodeAs s.Typ raw = some (.error e)) :
    getPrimitive dec d k s = .ret (.nil, true, some (.decode e)) := by
  unfold getPrimitive
  rw [hr]
  cases ht : s.Typ <;> rw [ht] at h <;> simp only [WeakDecoder.decodeAs, Option.some.injEq] at h
  · cases hb : dec.toBool raw <;> rw [hb] at h <;> simp [Except.map] at h
    subst h; simp [hb]
  · cases hb : dec.toInt raw <;> rw [hb] at h <;> simp [Except.map] at h
    subst h; simp [hb]
  · cases hb : dec.toStr raw <;> rw [hb] at h <;> simp [Except.map] at h
    subst h; simp [hb]
  · cases hb : dec.toMap raw <;> rw [hb] at h <;> simp [Except.map] at h
    subst h; simp [hb]
  · cases h

theorem getPrimitive_ok {dec : WeakDecoder} {d : FieldData} {k : String}
    {s : FieldSchema} {raw v : Value} (hr : d.Raw.lookup k = some raw)
    (h : dec.decodeAs s.Typ raw = some (.ok v)) :
    getPrimitive dec d k s = .ret (v, true, none) := by
  unfold getPrimitive
  rw [hr]
  cases ht : s.Typ <;> rw [ht] at h <;> simp only [WeakDecoder.decodeAs, Option.some.injEq] at h
  · cases hb : dec.toBool raw <;> rw [hb] at h <;> simp [Except.map] at h
    subst h; simp [hb]
  · cases hb : dec.toInt raw <;> rw [hb] at h <;> simp [Except.map] at h
    subst h; simp [hb]
  · cases hb : dec.toStr raw <;> rw [hb] at h <;> simp [Except.map] at h
    subst h; simp [hb]
  · cases hb : dec.toMap raw <;> rw [hb] at h <;> simp [Except.map] at h
    subst h; simp [hb]
  · cases h

/-- The result of a decode to a recognised type is an error or a value. -/
theorem decodeAs_cases (dec : WeakDecoder) {t : FieldType} (raw : Value)
    (ht : t.recognised = true) :
    (∃ e, dec.decodeAs t raw = some (.error e)) ∨ (∃ v, dec.decodeAs t raw = some (.ok v)) := by
  obtain ⟨r, hr⟩ := (decodeAs_recognised dec t raw).1 ht
  cases r with
  | error e => exact Or.inl ⟨e, hr⟩
  | ok v => exact Or.inr ⟨v, hr⟩

theorem GetOkErr_of_schema {dec : WeakDecoder} {d : FieldData} {k : String}
    {s : FieldSchema} (hs : d.Schema.lookup k = some s) (ht : s.Typ.recognised = true) :
    GetOkErr dec d k = getPrimitive dec d k s := by
  simp [GetOkErr, hs, ht]

theorem GetOkErr_unrecognised (dec : WeakDecoder) {d : FieldData} {k : String}
    {s : FieldSchema} (hs : d.Schema.lookup k = some s) (ht : s.Typ.recognised = false) :
    GetOkErr dec d k = .ret (.nil, false, some (.unknownFieldType s.Typ k)) := by
  simp [GetOkErr, hs, ht]

theorem GetOk_of_value {dec : WeakDecoder} {d : FieldData} {k : String} {s : FieldSchema}
    {v : Value} (hs : d.Schema.lookup k = some s)
    (h : GetOkErr dec d k = .ret (v, true, none)) (hv : v.isNil = false) :
    GetOk dec d k = .ret (v, true) := by
  simp [GetOk, hs, h, hv]

theorem GetOk_of_absent {dec : WeakDecoder} {d : FieldData} {k : String} {s : FieldSchema}
    (hs : d.Schema.lookup k = some s)
    (h : GetOkErr dec d k = .ret (.nil, false, none)) :
    GetOk dec d k = .ret (.nil, false) := by
  simp [GetOk, hs, h]

theorem GetOk_of_error {dec : WeakDecoder} {d : FieldData} {k : String} {s : FieldSchema}
    {v : Value} {ok : Bool} {err : GoError} (hs : d.Schema.lookup k = some s)
    (h : GetOkErr dec d k = .ret (v, ok, some err)) :
    GetOk dec d k = .panic (.errorReading k err) := by
  simp [GetOk, hs, h]

theorem DefaultOrZero_returns {s : FieldSchema} (ht : s.Typ.recognised = true) :
    ∃ v, s.DefaultOrZero = .ret v := by
  unfold FieldSchema.DefaultOrZero
  cases hd : s.Default <;> simp
  cases hT : s.Typ <;> simp [FieldType.Zero]
  rw [hT] at ht
  simp [FieldType.recognised] at ht

theorem lookup_of_mem {β : Type} {k : String} {v : β} {l : List (String × β)}
    (h : (k, v) ∈ l) : ∃ w, l.lookup k = some w := by
  induction l with
  | nil => cases h
  | cons e l ih =>
    obtain ⟨k1, v1⟩ := e
    by_cases hk : k = k1
    · subst hk
      exact ⟨v1, by simp [List.lookup]⟩
    · have hm : (k, v) ∈ l := by
        rcases List.mem_cons.1 h with h1 | h1
        · exact absurd (congrArg Prod.fst h1) hk
        · exact h1
      obtain ⟨w, hw⟩ := ih hm
      refine ⟨w, ?_⟩
      have hb : (k == k1) = false := by simpa using hk
      simp [List.lookup, hb, hw]

theorem mem_of_lookup {β : Type} {k : String} {v : β} {l : List (String × β)}
    (h : l.lookup k = some v) : (k, v) ∈ l := by
  induction l with
  | nil => simp [List.lookup] at h
  | cons e l ih =>
    obtain ⟨k1, v1⟩ := e
    by_cases hk : k = k1
    · subst hk
      simp [List.lookup] at h
      subst h
      exact List.mem_cons_self _ _
    · have hb : (k == k1) = false := by simpa using hk
      simp only [List.lookup, hb] at h
      exact List.mem_cons_of_mem _ (ih h)

theorem validateLoop_cons (dec : WeakDecoder) (d : FieldData) (field : String) (value : Value)
    (rest : List (String × Value)) :
    validateLoop dec d ((field, value) :: rest) =
      match d.Schema.lookup field with
      | none => validateLoop dec d rest
      | some schema =>
        if schema.Typ.recognised then
          match getPrimitive dec d field schema with
          | .panic p => .panic p
          | .ret (_, _, some _) => .ret (some (.convertingInput value field))
          | .ret (_, _, none) => validateLoop dec d rest
        else .ret (some (.unknownFieldType schema.Typ field)) := rfl

/-- When the loop over a list of entries ends without error. -/
theorem validateLoop_none_iff (dec : WeakDecoder) (d : FieldData) (l : List (String × Value)) :
    validateLoop dec d l = .ret none ↔
      ∀ e ∈ l, ∀ s, d.Schema.lookup e.1 = some s →
        s.Typ.recognised = true ∧
          ∀ raw, d.Raw.lookup e.1 = some raw → dec.coerces s.Typ raw = true := by
  induction l with
  | nil => simp [validateLoop]
  | cons e l ih =>
    obtain ⟨field, value⟩ := e
    rw [validateLoop_cons]
    simp only [List.mem_cons, forall_eq_or_imp]
    rw [← ih]
    cases hs : d.Schema.lookup field with
    | none => simp
    | some s =>
      cases ht : s.Typ.recognised with
      | false => simp [ht]
      | true =>
        simp only [if_true, Option.some.injEq, forall_eq', ht, true_and]
        cases hr : d.Raw.lookup field with
        | none => simp [getPrimitive_absent dec s hr]
        | some raw =>
          rcases decodeAs_cases dec raw ht with ⟨e, he⟩ | ⟨v, hv⟩
          · simp [getPrimitive_error hr he, WeakDecoder.coerces, he]
          · simp [getPrimitive_ok hr hv, WeakDecoder.coerces, hv]

/-- The loop of Validate never panics. -/
theorem validateLoop_returns (dec : WeakDecoder) (d : FieldData) (l : List (String × Value)) :
    ∃ e, validateLoop dec d l = .ret e := by
  induction l with
  | nil => exact ⟨none, rfl⟩
  | cons e l ih =>
    obtain ⟨field, value⟩ := e
    rw [validateLoop_cons]
    cases hs : d.Schema.lookup field with
    | none => simpa using ih
    | some s =>
      cases ht : s.Typ.recognised with
      | false => simp [ht]
      | true =>
        simp only [if_true, ht]
        cases hr : d.Raw.lookup field with
        | none => simpa [getPrimitive_absent dec s hr] using ih
        | some raw =>
          rcases decodeAs_cases dec raw ht with ⟨e, he⟩ | ⟨v, hv⟩
          · simp [getPrimitive_error hr he]
          · simpa [getPrimitive_ok hr hv] using ih

/-- Validate ends without error exactly when every key of Raw that Schema
knows coerces to its declared type. -/
theorem Validate_none_iff (dec : WeakDecoder) (d : FieldData) :
    Validate dec d = .ret none ↔
      ∀ k raw s, d.Raw.lookup k = some raw → d.Schema.lookup k = some s →
        dec.coerces s.Typ raw = true := by
  unfold Validate
  rw [validateLoop_none_iff]
  constructor
  · intro h k raw s hr hs
    exact (h (k, raw) (mem_of_lookup hr) s hs).2 raw hr
  · intro h e he s hs
    obtain ⟨k, v⟩ := e
    obtain ⟨w, hw⟩ := lookup_of_mem he
    have hc := h k w s hw hs
    refine ⟨?_, fun raw hr => ?_⟩
    · obtain ⟨v1, hv1⟩ := (coerces_iff dec s.Typ w).1 hc
      exact (decodeAs_recognised dec s.Typ w).2 ⟨_, hv1⟩
    · have : raw = w := by
        have h2 : List.lookup k d.Raw = some raw := hr
        rw [hw] at h2
        exact (Option.some.inj h2).symm
      rw [this]
      exact hc

/-- A present value that decodes: the three getters agree on it. -/
theorem getters_of_decoded {dec : WeakDecoder} {d : FieldData} {f : String}
    {s : FieldSchema} {raw v : Value} (hs : d.Schema.lookup f = some s)
    (hr : d.Raw.lookup f = some raw) (hv : dec.decodeAs s.Typ raw = some (.ok v)) :
    Get dec d f = .ret v ∧ GetOk dec d f = .ret (v, true) ∧
      GetOkErr dec d f = .ret (v, true, none) := by
  have ht : s.Typ.recognised = true := (decodeAs_recognised dec s.Typ raw).2 ⟨_, hv⟩
  have h1 : GetOkErr dec d f = .ret (v, true, none) := by
    rw [GetOkErr_of_schema hs ht]
    exact getPrimitive_ok hr hv
  have h2 : GetOk dec d f = .ret (v, true) := GetOk_of_value hs h1 (decodeAs_ok_not_nil hv)
  refine ⟨?_, h2, h1⟩
  simp [Get, hs, h2]

/-- A key of a recognised type that Raw does not hold: no error, not present,
and Get falls back on the descriptor. -/
theorem getters_of_absent (dec : WeakDecoder) {d : FieldData} {f : String}
    {s : FieldSchema} (hs : d.Schema.lookup f = some s) (ht : s.Typ.recognised = true)
    (hr : d.Raw.lookup f = none) :
    Get dec d f = s.DefaultOrZero ∧ GetOk dec d f = .ret (.nil, false) ∧
      GetOkErr dec d f = .ret (.nil, false, none) := by
  have h1 : GetOkErr dec d f = .ret (.nil, false, none) := by
    rw [GetOkErr_of_schema hs ht]
    exact getPrimitive_absent dec s hr
  have h2 : GetOk dec d f = .ret (.nil, false) := GetOk_of_absent hs h1
  refine ⟨?_, h2, h1⟩
  simp [Get, hs, h2]

/-- An error from GetOkErr: GetOk panics with it, and so does Get. -/
theorem getters_of_error {dec : WeakDecoder} {d : FieldData} {f : String}
    {s : FieldSchema} {v : Value} {ok : Bool} {err : GoError}
    (hs : d.Schema.lookup f = some s) (h : GetOkErr dec d f = .ret (v, ok, some err)) :
    Get dec d f = .panic (.errorReading f err) ∧ GetOk dec d f = .panic (.errorReading f err) := by
  have h2 := GetOk_of_error hs h
  refine ⟨?_, h2⟩
  simp [Get, hs, h2]

/-- The three ways a lookup of a Schema key can go. -/
theorem getters_cases (dec : WeakDecoder) {d : FieldData} {k : String} {s : FieldSchema}
    (hs : d.Schema.lookup k = some s) :
    (∃ v ok err, GetOkErr dec d k = .ret (v, ok, some err) ∧
        GetOk dec d k = .panic (.errorReading k err) ∧
        Get dec d k = .panic (.errorReading k err)) ∨
    (s.Typ.recognised = true ∧ d.Raw.lookup k = none ∧
        GetOkErr dec d k = .ret (.nil, false, none) ∧
        GetOk dec d k = .ret (.nil, false) ∧ Get dec d k = s.DefaultOrZero) ∨
    (∃ raw v, d.Raw.lookup k = some raw ∧ dec.decodeAs s.Typ raw = some (.ok v) ∧
        v.isNil = false ∧ GetOkErr dec d k = .ret (v, true, none) ∧
        GetOk dec d k = .ret (v, true) ∧ Get dec d k = .ret v) := by
  cases ht : s.Typ.recognised with
  | false =>
    have h := GetOkErr_unrecognised dec hs ht
    exact Or.inl ⟨_, _, _, h, (getters_of_error hs h).2, (getters_of_error hs h).1⟩
  | true =>
    cases hr : d.Raw.lookup k with
    | none =>
      obtain ⟨h1, h2, h3⟩ := getters_of_absent dec hs ht hr
      exact Or.inr (Or.inl ⟨rfl, rfl, h3, h2, h1⟩)
    | some raw =>
      rcases decodeAs_cases dec raw ht with ⟨e, he⟩ | ⟨v, hv⟩
      · have h : GetOkErr dec d k = .ret (.nil, true, some (.decode e)) := by
          rw [GetOkErr_of_schema hs ht]
          exact getPrimitive_error hr he
        exact Or.inl ⟨_, _, _, h, (getters_of_error hs h).2, (getters_of_error hs h).1⟩
      · obtain ⟨h1, h2, h3⟩ := getters_of_decoded hs hr hv
        exact Or.inr (Or.inr ⟨raw, v, rfl, hv, decodeAs_ok_not_nil hv, h3, h2, h1⟩)

/-! ## The accessor contract -/

/-- C1: GetOkErr follows the four-case decision table. (1) A key outside Schema
gives (nil, false, unknown-field error). (2) A Schema key whose type is not one
of the four gives (nil, false, unknown-type error), whatever Raw holds. (3) A
Schema key of a recognised type that is absent from Raw gives (nil, false, nil).
(4) A Schema key of a recognised type that is present in Raw gives
(nil, true, err) when the weak decode to the declared type fails and
(v, true, nil), v the decoded value, when it succeeds; one of the two happens. -/
theorem C1_GetOkErr_decision_table (dec : WeakDecoder) (d : FieldData) (k : String) :
    (d.Schema.lookup k = none →
      GetOkErr dec d k = .ret (.nil, false, some (.unknownField k))) ∧
    (∀ s, d.Schema.lookup k = some s → s.Typ.recognised = false →
      GetOkErr dec d k = .ret (.nil, false, some (.unknownFieldType s.Typ k))) ∧
    (∀ s, d.Schema.lookup k = some s → s.Typ.recognised = true → d.Raw.lookup k = none →
      GetOkErr dec d k = .ret (.nil, false, none)) ∧
    (∀ s raw, d.Schema.lookup k = some s → s.Typ.recognised = true →
      d.Raw.lookup k = some raw →
        (∀ e, dec.decodeAs s.Typ raw = some (.error e) →
          GetOkErr dec d k = .ret (.nil, true, some (.decode e))) ∧
        (∀ v, dec.decodeAs s.Typ raw = some (.ok v) →
          GetOkErr dec d k = .ret (v, true, none)) ∧
        ((∃ e, dec.decodeAs s.Typ raw = some (.error e)) ∨
          (∃ v, dec.decodeAs s.Typ raw = some (.ok v)))) := by
  refine ⟨fun hs => by simp [GetOkErr, hs], fun s hs ht => GetOkErr_unrecognised dec hs ht,
    fun s hs ht hr => ?_, fun s raw hs ht hr => ⟨fun e he => ?_, fun v hv => ?_, ?_⟩⟩
  · rw [GetOkErr_of_schema hs ht]
    exact getPrimitive_absent dec s hr
  · rw [GetOkErr_of_schema hs ht]
    exact getPrimitive_error hr he
  · rw [GetOkErr_of_schema hs ht]
    exact getPrimitive_ok hr hv
  · exact decodeAs_cases dec raw ht

/-- C1 at concrete records: one instance of each row of the table. -/
theorem C1_GetOkErr_decision_table_witness :
    GetOkErr sampleDecoder exCount "port" = .ret (.nil, false, some (.unknownField "port")) ∧
    GetOkErr sampleDecoder exBlobSet "blob"
      = .ret (.nil, false, some (.unknownFieldType (.unrecognised 0) "blob")) ∧
    GetOkErr sampleDecoder exName "name" = .ret (.nil, false, none) ∧
    GetOkErr sampleDecoder exBadCount "count"
      = .ret (.nil, true, some (.decode "expected type int")) ∧
    GetOkErr sampleDecoder exCount "count" = .ret (.int 7, true, none) :=
  ⟨(C1_GetOkErr_decision_table sampleDecoder exCount "port").1 rfl,
   (C1_GetOkErr_decision_table sampleDecoder exBlobSet "blob").2.1 _ rfl rfl,
   (C1_GetOkErr_decision_table sampleDecoder exName "name").2.2.1 _ rfl rfl rfl,
   ((C1_GetOkErr_decision_table sampleDecoder exBadCount "count").2.2.2 _ _ rfl rfl rfl).1 _ rfl,
   ((C1_GetOkErr_decision_table sampleDecoder exCount "count").2.2.2 _ _ rfl rfl rfl).2.1 _ rfl⟩

/-- C2: Validate returns no error if and only if every key that is present in
Raw and also in Schema coerces to its declared type, that is, its descriptor
has a recognised type and the weak decode of the raw value succeeds. -/
theorem C2_Validate_ok_iff (dec : WeakDecoder) (d : FieldData) :
    Validate dec d = .ret none ↔
      ∀ k raw s, d.Raw.lookup k = some raw → d.Schema.lookup k = some s →
        dec.coerces s.Typ raw = true :=
  Validate_none_iff dec d

/-- C3: for a Schema field of one of the four types that is absent from Raw,
Get returns the DefaultOrZero of its descriptor: the declared default if one
was set, otherwise false, 0, "" or the empty mapping according to the type.
With Schema {"enabled": Bool default=false} and empty Raw, Get("enabled") is
false. -/
theorem C3_Get_absent_is_default (dec : WeakDecoder) (d : FieldData) (f : String)
    (s : FieldSchema) (hs : d.Schema.lookup f = some s) (ht : s.Typ.recognised = true)
    (hr : d.Raw.lookup f = none) :
    Get dec d f = s.DefaultOrZero ∧
    (s.Default.isNil = false → Get dec d f = .ret s.Default) ∧
    (s.Default.isNil = true → s.Typ = .TypeBool → Get dec d f = .ret (.bool false)) ∧
    (s.Default.isNil = true → s.Typ = .TypeInt → Get dec d f = .ret (.int 0)) ∧
    (s.Default.isNil = true → s.Typ = .TypeString → Get dec d f = .ret (.str "")) ∧
    (s.Default.isNil = true → s.Typ = .TypeMap → Get dec d f = .ret (.map (some []))) ∧
    Get dec exEnabled "enabled" = .ret (.bool false) := by
  have hg : Get dec d f = s.DefaultOrZero := (getters_of_absent dec hs ht hr).1
  refine ⟨hg, ?_, ?_, ?_, ?_, ?_, rfl⟩
  · intro hd
    rw [hg]
    unfold FieldSchema.DefaultOrZero
    cases hD : s.Default <;> simp_all [Value.isNil]
  all_goals
    intro hd hT
    rw [hg]
    unfold FieldSchema.DefaultOrZero
    cases hD : s.Default <;> simp_all [Value.isNil, FieldType.Zero]

/-- C3 at the record with the Bool field "enabled" (default false) and empty Raw. -/
theorem C3_Get_absent_is_default_witness :
    Get sampleDecoder exEnabled "enabled" = .ret (.bool false) ∧
    Get sampleDecoder exName "name" = .ret (.str "") :=
  ⟨(C3_Get_absent_is_default sampleDecoder exEnabled "enabled" _ rfl rfl rfl).2.1 rfl,
   (C3_Get_absent_is_default sampleDecoder exName "name" _ rfl rfl rfl).2.2.2.2.1 rfl rfl⟩

/-- C4: for a Schema field present in Raw whose raw value coerces to the
declared type (a nil raw value or a decode to an empty or nil mapping
included), Get, GetOk and GetOkErr all return the coerced value, and GetOk and
GetOkErr report present = true. -/
theorem C4_present_coercible_agree (dec : WeakDecoder) (d : FieldData) (f : String)
    (s : FieldSchema) (raw v : Value) (hs : d.Schema.lookup f = some s)
    (hr : d.Raw.lookup f = some raw) (hv : dec.decodeAs s.Typ raw = some (.ok v)) :
    Get dec d f = .ret v ∧ GetOk dec d f = .ret (v, true) ∧
      GetOkErr dec d f = .ret (v, true, none) :=
  getters_of_decoded hs hr hv

/-- C4 at a Map field whose raw value is nil: all three return the nil mapping. -/
theorem C4_present_coercible_agree_witness :
    Get sampleDecoder exNilMap "tags" = .ret (.map none) ∧
    GetOk sampleDecoder exNilMap "tags" = .ret (.map none, true) ∧
    GetOkErr sampleDecoder exNilMap "tags" = .ret (.map none, true, none) :=
  C4_present_coercible_agree sampleDecoder exNilMap "tags" _ .nil (.map none) rfl rfl rfl

/-- C5, as stated, fails: "port" is not a Schema key of the record, and GetOk
returns (nil, false) for it instead of panicking. -/
theorem C5_GetOk_unknown_key_counterexample :
    exCount.Schema.lookup "port" = none ∧
    GetOk sampleDecoder exCount "port" = .ret (.nil, false) ∧
    (GetOk sampleDecoder exCount "port").panics = false :=
  ⟨rfl, rfl, rfl⟩

/-- C5, amended: for a key outside Schema, GetOkErr returns
(nil, false, unknown-field error) and Get panics, while GetOk returns
(nil, false) without panicking. -/
theorem C5_unknown_key (dec : WeakDecoder) (d : FieldData) (k : String)
    (hs : d.Schema.lookup k = none) :
    GetOkErr dec d k = .ret (.nil, false, some (.unknownField k)) ∧
    Get dec d k = .panic (.fieldNotInSchema k) ∧
    GetOk dec d k = .ret (.nil, false) := by
  simp [GetOkErr, Get, GetOk, hs]

/-- C5, amended, at the key "port" of a record whose Schema only has "count". -/
theorem C5_unknown_key_witness :
    GetOkErr sampleDecoder exCount "port" = .ret (.nil, false, some (.unknownField "port")) ∧
    Get sampleDecoder exCount "port" = .panic (.fieldNotInSchema "port") ∧
    GetOk sampleDecoder exCount "port" = .ret (.nil, false) :=
  C5_unknown_key sampleDecoder exCount "port" rfl

/-- C6: when the key is not in Schema, or is in Schema with a recognised type
and not set in Raw, GetOk returns normally and its second value is false. -/
theorem C6_GetOk_false_without_panic (dec : WeakDecoder) (d : FieldData) (k : String)
    (h : d.Schema.lookup k = none ∨
      ∃ s, d.Schema.lookup k = some s ∧ s.Typ.recognised = true ∧ d.Raw.lookup k = none) :
    (∃ v, GetOk dec d k = .ret (v, false)) ∧ (GetOk dec d k).panics = false := by
  have hg : GetOk dec d k = .ret (.nil, false) := by
    rcases h with h | ⟨s, hs, ht, hr⟩
    · simp [GetOk, h]
    · exact (getters_of_absent dec hs ht hr).2.1
  rw [hg]
  exact ⟨⟨_, rfl⟩, rfl⟩

/-- C6 at an unknown key and at a declared key that Raw does not hold. -/
theorem C6_GetOk_false_without_panic_witness :
    ((∃ v, GetOk sampleDecoder exName "port" = .ret (v, false)) ∧
      (GetOk sampleDecoder exName "port").panics = false) ∧
    ((∃ v, GetOk sampleDecoder exName "name" = .ret (v, false)) ∧
      (GetOk sampleDecoder exName "name").panics = false) :=
  ⟨C6_GetOk_false_without_panic sampleDecoder exName "port" (Or.inl rfl),
   C6_GetOk_false_without_panic sampleDecoder exName "name" (Or.inr ⟨_, rfl, rfl, rfl⟩)⟩

/-- C7, as stated, fails: with Schema {"name": String} and Raw {"other": 1},
GetOk("name") returns (nil, false); its value is not the empty string. -/
theorem C7_GetOk_absent_string_counterexample :
    exName.Schema.lookup "name" = some { Typ := .TypeString, Default := .nil } ∧
    exName.Raw.lookup "name" = none ∧
    GetOk sampleDecoder exName "name" = .ret (.nil, false) ∧
    GetOk sampleDecoder exName "name" ≠ .ret (.str "", false) := by
  refine ⟨rfl, rfl, rfl, ?_⟩
  rw [show GetOk sampleDecoder exName "name" = .ret (.nil, false) from rfl]
  intro h
  cases h

/-- C7, amended: when Schema declares k as String without default and Raw does
not hold k, GetOk returns the pair (nil, false): the value component is nil,
not the empty string. -/
theorem C7_GetOk_absent_string (dec : WeakDecoder) (d : FieldData) (k : String)
    (s : FieldSchema) (hs : d.Schema.lookup k = some s) (hT : s.Typ = .TypeString)
    (_hD : s.Default.isNil = true) (hr : d.Raw.lookup k = none) :
    GetOk dec d k = .ret (.nil, false) := by
  have ht : s.Typ.recognised = true := by rw [hT]; rfl
  exact (getters_of_absent dec hs ht hr).2.1

/-- C7, amended, at Schema {"name": String}, Raw {"other": 1}. -/
theorem C7_GetOk_absent_string_witness :
    GetOk sampleDecoder exName "name" = .ret (.nil, false) :=
  C7_GetOk_absent_string sampleDecoder exName "name" _ rfl rfl rfl rfl

/-- C8, as stated, fails: the Schema key "blob" has an unrecognised type and
Raw is empty; Validate returns nil, yet GetOkErr("blob") returns an error and
GetOk("blob") and Get("blob") panic. -/
theorem C8_Validate_gate_counterexample :
    Validate sampleDecoder exBlob = .ret none ∧
    exBlob.Schema.lookup "blob" = some { Typ := .unrecognised 0, Default := .nil } ∧
    GetOkErr sampleDecoder exBlob "blob"
      = .ret (.nil, false, some (.unknownFieldType (.unrecognised 0) "blob")) ∧
    (GetOk sampleDecoder exBlob "blob").panics = true ∧
    (Get sampleDecoder exBlob "blob").panics = true :=
  ⟨rfl, rfl, rfl, rfl, rfl⟩

/-- C8, amended: when Validate returns nil, for every Schema key whose
descriptor has a recognised type, or that is present in Raw, GetOkErr returns
a nil error and GetOk and Get return normally. -/
theorem C8_Validate_gate (dec : WeakDecoder) (d : FieldData) (k : String) (s : FieldSchema)
    (hv : Validate dec d = .ret none) (hs : d.Schema.lookup k = some s)
    (h : s.Typ.recognised = true ∨ ∃ raw, d.Raw.lookup k = some raw) :
    (∃ v ok, GetOkErr dec d k = .ret (v, ok, none)) ∧
    (GetOk dec d k).returns = true ∧ (Get dec d k).returns = true := by
  have hall := (Validate_none_iff dec d).1 hv
  cases hr : d.Raw.lookup k with
  | some raw =>
    obtain ⟨v, hdec⟩ := (coerces_iff dec s.Typ raw).1 (hall k raw s hr hs)
    obtain ⟨h1, h2, h3⟩ := getters_of_decoded hs hr hdec
    rw [h1, h2, h3]
    exact ⟨⟨_, _, rfl⟩, rfl, rfl⟩
  | none =>
    have ht : s.Typ.recognised = true := by
      rcases h with h | ⟨raw, h⟩
      · exact h
      · rw [hr] at h; cases h
    obtain ⟨h1, h2, h3⟩ := getters_of_absent dec hs ht hr
    obtain ⟨z, hz⟩ := DefaultOrZero_returns ht
    rw [h1, h2, h3, hz]
    exact ⟨⟨_, _, rfl⟩, rfl, rfl⟩

/-- C8, amended, at a validated record: a present key and an absent one. -/
theorem C8_Validate_gate_witness :
    ((∃ v ok, GetOkErr sampleDecoder exCount "count" = .ret (v, ok, none)) ∧
      (GetOk sampleDecoder exCount "count").returns = true ∧
      (Get sampleDecoder exCount "count").returns = true) ∧
    ((∃ v ok, GetOkErr sampleDecoder exName "name" = .ret (v, ok, none)) ∧
      (GetOk sampleDecoder exName "name").returns = true ∧
      (Get sampleDecoder exName "name").returns = true) :=
  ⟨C8_Validate_gate sampleDecoder exCount "count" _ rfl rfl (Or.inr ⟨_, rfl⟩),
   C8_Validate_gate sampleDecoder exName "name" _ rfl rfl (Or.inl rfl)⟩

/-- C9: for a key in Schema, GetOk panics if and only if GetOkErr returns a
non-nil error, Get panics under exactly the same condition, and when GetOkErr
returns a nil error neither panics. -/
theorem C9_panic_iff_error (dec : WeakDecoder) (d : FieldData) (k : String) (s : FieldSchema)
    (hs : d.Schema.lookup k = some s) :
    ((GetOk dec d k).panics = true ↔ ∃ v ok err, GetOkErr dec d k = .ret (v, ok, some err)) ∧
    ((Get dec d k).panics = true ↔ ∃ v ok err, GetOkErr dec d k = .ret (v, ok, some err)) ∧
    ((∃ v ok, GetOkErr dec d k = .ret (v, ok, none)) →
      (GetOk dec d k).panics = false ∧ (Get dec d k).panics = false) := by
  rcases getters_cases dec hs with ⟨v, ok, err, h1, h2, h3⟩ | ⟨ht, _, h1, h2, h3⟩ |
      ⟨raw, v, _, _, _, h1, h2, h3⟩
  · rw [h1, h2, h3]
    simp [Outcome.panics]
  · obtain ⟨z, hz⟩ := DefaultOrZero_returns ht
    rw [h1, h2, h3, hz]
    simp [Outcome.panics]
  · rw [h1, h2, h3]
    simp [Outcome.panics]

/-- C9 at a key whose raw value does not convert and at a key that reads well. -/
theorem C9_panic_iff_error_witness :
    (GetOk sampleDecoder exBadCount "count").panics = true ∧
    (Get sampleDecoder exBadCount "count").panics = true ∧
    (GetOk sampleDecoder exCount "count").panics = false ∧
    (Get sampleDecoder exCount "count").panics = false :=
  ⟨(C9_panic_iff_error sampleDecoder exBadCount "count" _ rfl).1.2 ⟨_, _, _, rfl⟩,
   (C9_panic_iff_error sampleDecoder exBadCount "count" _ rfl).2.1.2 ⟨_, _, _, rfl⟩,
   (C9_panic_iff_error sampleDecoder exCount "count" _ rfl).2.2 ⟨_, _, rfl⟩⟩

/-- C10: GetOkErr never panics, whatever the record and the key, and neither
does Validate: getPrimitive is only called after the dispatch on the four
recognised types, and with such a type it returns. -/
theorem C10_GetOkErr_never_panics (dec : WeakDecoder) (d : FieldData) (k : String) :
    (∃ v ok err, GetOkErr dec d k = .ret (v, ok, err)) ∧
    (∃ err, Validate dec d = .ret err) ∧
    (∀ s : FieldSchema, s.Typ.recognised = true →
      ∃ v ok err, getPrimitive dec d k s = .ret (v, ok, err)) := by
  have hp : ∀ s : FieldSchema, s.Typ.recognised = true →
      ∃ v ok err, getPrimitive dec d k s = .ret (v, ok, err) := by
    intro s ht
    cases hr : d.Raw.lookup k with
    | none => exact ⟨_, _, _, getPrimitive_absent dec s hr⟩
    | some raw =>
      rcases decodeAs_cases dec raw ht with ⟨e, he⟩ | ⟨v, hv⟩
      · exact ⟨_, _, _, getPrimitive_error hr he⟩
      · exact ⟨_, _, _, getPrimitive_ok hr hv⟩
  refine ⟨?_, validateLoop_returns dec d d.Raw, hp⟩
  cases hs : d.Schema.lookup k with
  | none => exact ⟨.nil, false, some (.unknownField k), by simp [GetOkErr, hs]⟩
  | some s =>
    cases ht : s.Typ.recognised with
    | false => exact ⟨_, _, _, GetOkErr_unrecognised dec hs ht⟩
    | true =>
      rw [GetOkErr_of_schema hs ht]
      exact hp s ht

/-! ## Facts about iteration order and about updates of Raw -/

/-- The loop stops at the first error: what comes after it is not looked at. -/
theorem validateLoop_append (dec : WeakDecoder) (d : FieldData)
    (l1 l2 : List (String × Value)) :
    validateLoop dec d (l1 ++ l2) =
      match validateLoop dec d l1 with
      | .ret none => validateLoop dec d l2
      | r => r := by
  induction l1 with
  | nil => rfl
  | cons e l ih =>
    obtain ⟨field, value⟩ := e
    rw [List.cons_append, validateLoop_cons, validateLoop_cons]
    cases hs : d.Schema.lookup field with
    | none => simpa using ih
    | some s =>
      cases ht : s.Typ.recognised with
      | false => simp [ht]
      | true =>
        simp only [if_true, ht]
        cases hr : d.Raw.lookup field with
        | none => simpa [getPrimitive_absent dec s hr] using ih
        | some raw =>
          rcases decodeAs_cases dec raw ht with ⟨e, he⟩ | ⟨v, hv⟩
          · simp [getPrimitive_error hr he]
          · simpa [getPrimitive_ok hr hv] using ih

/-- An error of the loop is the error of one entry of the list it walked. -/
theorem validateLoop_error_mem {dec : WeakDecoder} {d : FieldData}
    {l : List (String × Value)} {err : GoError}
    (h : validateLoop dec d l = .ret (some err)) :
    ∃ f value s, (f, value) ∈ l ∧ d.Schema.lookup f = some s ∧
      ((s.Typ.recognised = true ∧ (∃ raw, d.Raw.lookup f = some raw ∧
          dec.coerces s.Typ raw = false) ∧ err = .convertingInput value f) ∨
        (s.Typ.recognised = false ∧ err = .unknownFieldType s.Typ f)) := by
  induction l with
  | nil => simp [validateLoop] at h
  | cons e l ih =>
    obtain ⟨field, value⟩ := e
    have lift : (∃ f value s, (f, value) ∈ l ∧ d.Schema.lookup f = some s ∧
        ((s.Typ.recognised = true ∧ (∃ raw, d.Raw.lookup f = some raw ∧
            dec.coerces s.Typ raw = false) ∧ err = .convertingInput value f) ∨
          (s.Typ.recognised = false ∧ err = .unknownFieldType s.Typ f))) →
        ∃ f value1 s, (f, value1) ∈ (field, value) :: l ∧ d.Schema.lookup f = some s ∧
        ((s.Typ.recognised = true ∧ (∃ raw, d.Raw.lookup f = some raw ∧
            dec.coerces s.Typ raw = false) ∧ err = .convertingInput value1 f) ∨
          (s.Typ.recognised = false ∧ err = .unknownFieldType s.Typ f)) := by
      rintro ⟨f, v, s, hm, rest⟩
      exact ⟨f, v, s, List.mem_cons_of_mem _ hm, rest⟩
    rw [validateLoop_cons] at h
    cases hs : d.Schema.lookup field with
    | none =>
      rw [hs] at h
      exact lift (ih h)
    | some s =>
      rw [hs] at h
      cases ht : s.Typ.recognised with
      | false =>
        simp [ht] at h
        exact ⟨field, value, s, List.mem_cons_self _ _, hs, Or.inr ⟨ht, h.symm⟩⟩
      | true =>
        simp only [if_true, ht] at h
        cases hr : d.Raw.lookup field with
        | none =>
          rw [getPrimitive_absent dec s hr] at h
          exact lift (ih h)
        | some raw =>
          rcases decodeAs_cases dec raw ht with ⟨e, he⟩ | ⟨v, hv⟩
          · rw [getPrimitive_error hr he] at h
            simp at h
            refine ⟨field, value, s, List.mem_cons_self _ _, hs, Or.inl ⟨ht, ⟨raw, hr, ?_⟩, h.symm⟩⟩
            simp [WeakDecoder.coerces, he]
          · rw [getPrimitive_ok hr hv] at h
            exact lift (ih h)

theorem lookup_of_mem_nodup {β : Type} {k : String} {v : β} {l : List (String × β)}
    (hm : (k, v) ∈ l) (hn : (l.map Prod.fst).Nodup) : l.lookup k = some v := by
  induction l with
  | nil => cases hm
  | cons e l ih =>
    obtain ⟨k1, v1⟩ := e
    simp only [List.map_cons, List.nodup_cons] at hn
    rcases List.mem_cons.1 hm with h1 | h1
    · cases h1
      simp [List.lookup]
    · have hk : k ≠ k1 := by
        rintro rfl
        exact hn.1 (List.mem_map.2 ⟨(k, v), h1, rfl⟩)
      have hb : (k == k1) = false := by simpa using hk
      simp only [List.lookup, hb]
      exact ih h1 hn.2

theorem lookup_filter_ne {β : Type} {k u : String} (l : List (String × β)) (h : k ≠ u) :
    (l.filter (fun e => e.1 != u)).lookup k = l.lookup k := by
  induction l with
  | nil => rfl
  | cons e l ih =>
    obtain ⟨k1, v1⟩ := e
    by_cases h1 : k1 = u
    · subst h1
      have hb : (k == k1) = false := by simpa using h
      simp [List.filter, List.lookup, hb, ih]
    · have hf : (k1 != u) = true := by simpa using h1
      simp only [List.filter, hf, List.lookup]
      cases hb : (k == k1) <;> simp [ih]

theorem lookup_filter_self {β : Type} (u : String) (l : List (String × β)) :
    (l.filter (fun e => e.1 != u)).lookup u = none := by
  induction l with
  | nil => rfl
  | cons e l ih =>
    obtain ⟨k1, v1⟩ := e
    by_cases h1 : k1 = u
    · subst h1
      simp [List.filter, ih]
    · have hf : (k1 != u) = true := by simpa using h1
      have hb : (u == k1) = false := by simpa using fun h => h1 h.symm
      simp only [List.filter, hf, List.lookup, hb]
      exact ih

/-- `getPrimitive` reads the record through `d.Raw[k]` only. -/
theorem getPrimitive_congr (dec : WeakDecoder) {d e : FieldData} {k : String} (s : FieldSchema)
    (h : d.Raw.lookup k = e.Raw.lookup k) :
    getPrimitive dec d k s = getPrimitive dec e k s := by
  unfold getPrimitive
  rw [h]

/-- Two records with the same Schema whose Raw agree on every Schema key give
the same results from the three getters. -/
theorem getters_congr (dec : WeakDecoder) {d e : FieldData} (hS : e.Schema = d.Schema)
    (hR : ∀ k s, d.Schema.lookup k = some s → d.Raw.lookup k = e.Raw.lookup k) (k : String) :
    GetOkErr dec e k = GetOkErr dec d k ∧ GetOk dec e k = GetOk dec d k ∧
      Get dec e k = Get dec d k := by
  have h1 : GetOkErr dec e k = GetOkErr dec d k := by
    unfold GetOkErr
    rw [hS]
    cases hs : d.Schema.lookup k with
    | none => rfl
    | some s => simp only [getPrimitive_congr dec s (hR k s hs)]
  have h2 : GetOk dec e k = GetOk dec d k := by
    unfold GetOk
    rw [hS, h1]
  refine ⟨h1, h2, ?_⟩
  unfold Get
  rw [hS, h2]

/-- Two records with the same Schema whose Raw agree on every Schema key pass
validation together. -/
theorem Validate_congr (dec : WeakDecoder) {d e : FieldData} (hS : e.Schema = d.Schema)
    (hR : ∀ k s, d.Schema.lookup k = some s → d.Raw.lookup k = e.Raw.lookup k) :
    Validate dec e = .ret none ↔ Validate dec d = .ret none := by
  rw [Validate_none_iff, Validate_none_iff, hS]
  constructor
  · intro h k raw s hr hs
    exact h k raw s (by rw [← hR k s hs]; exact hr) hs
  · intro h k raw s hr hs
    exact h k raw s (by rw [hR k s hs]; exact hr) hs

/-- When every entry that Schema knows fails with the same error, and there is
one, the loop returns that error. -/
theorem validateLoop_uniform {dec : WeakDecoder} {d : FieldData} {err : GoError}
    (l : List (String × Value))
    (hall : ∀ e ∈ l, d.Schema.lookup e.1 = none ∨ validateLoop dec d [e] = .ret (some err))
    (hex : ∃ e ∈ l, validateLoop dec d [e] = .ret (some err)) :
    validateLoop dec d l = .ret (some err) := by
  induction l with
  | nil => obtain ⟨e, he, _⟩ := hex; cases he
  | cons e l ih =>
    have happ := validateLoop_append dec d [e] l
    rw [List.singleton_append] at happ
    rw [happ]
    rcases hall e (List.mem_cons_self _ _) with h | h
    · have hnone : validateLoop dec d [e] = .ret none := by
        obtain ⟨field, value⟩ := e
        rw [validateLoop_cons]
        simp only [] at h
        rw [h]
        rfl
      rw [hnone]
      refine ih (fun x hx => hall x (List.mem_cons_of_mem _ hx)) ?_
      obtain ⟨x, hx, hxe⟩ := hex
      rcases List.mem_cons.1 hx with hx1 | hx1
      · subst hx1
        rw [hnone] at hxe
        simp at hxe
      · exact ⟨x, hx1, hxe⟩
    · rw [h]

/-- Taking a key that Raw does not hold out of Schema does not change the loop. -/
theorem validateLoop_deleteSchema (dec : WeakDecoder) (d : FieldData) (f : String)
    (l : List (String × Value)) (h : ∀ e ∈ l, e.1 ≠ f) :
    validateLoop dec (d.deleteSchema f) l = validateLoop dec d l := by
  induction l with
  | nil => rfl
  | cons e l ih =>
    obtain ⟨field, value⟩ := e
    have hne : field ≠ f := h (field, value) (List.mem_cons_self _ _)
    have hl : (d.deleteSchema f).Schema.lookup field = d.Schema.lookup field :=
      lookup_filter_ne d.Schema hne
    rw [validateLoop_cons, validateLoop_cons, hl,
      ih (fun x hx => h x (List.mem_cons_of_mem _ hx))]
    rfl

/-- The loop returns an error exactly when it does not end with nil. -/
theorem validateLoop_error_iff (dec : WeakDecoder) (d : FieldData) (l : List (String × Value)) :
    (∃ err, validateLoop dec d l = .ret (some err)) ↔ validateLoop dec d l ≠ .ret none := by
  obtain ⟨r, hr⟩ := validateLoop_returns dec d l
  rw [hr]
  cases r <;> simp

/-- A value that the decoder rejects makes Validate return an error. -/
theorem Validate_error_of_rejected {dec : WeakDecoder} {d : FieldData} {k : String}
    {s : FieldSchema} {raw : Value} (hs : d.Schema.lookup k = some s)
    (hr : d.Raw.lookup k = some raw) (hc : dec.coerces s.Typ raw = false) :
    ∃ err, Validate dec d = .ret (some err) := by
  refine (validateLoop_error_iff dec d d.Raw).2 ?_
  intro hnone
  have := (Validate_none_iff dec d).1 hnone k raw s hr hs
  rw [hc] at this
  cases this

theorem coerces_of_unrecognised (dec : WeakDecoder) {t : FieldType} (raw : Value)
    (ht : t.recognised = false) : dec.coerces t raw = false := by
  cases t <;> simp_all [FieldType.recognised, WeakDecoder.coerces, WeakDecoder.decodeAs]

theorem decodeAs_ok_hasType {dec : WeakDecoder} {t : FieldType} {raw v : Value}
    (h : dec.decodeAs t raw = some (.ok v)) : v.hasType t = true := by
  cases t <;> simp only [WeakDecoder.decodeAs, Option.some.injEq] at h
  · cases hb : dec.toBool raw <;> rw [hb] at h <;> simp [Except.map] at h
    subst h; rfl
  · cases hb : dec.toInt raw <;> rw [hb] at h <;> simp [Except.map] at h
    subst h; rfl
  · cases hb : dec.toStr raw <;> rw [hb] at h <;> simp [Except.map] at h
    subst h; rfl
  · cases hb : dec.toMap raw <;> rw [hb] at h <;> simp [Except.map] at h
    subst h; rfl
  · cases h

theorem validateLoop_single_rejected {dec : WeakDecoder} {d : FieldData} {k : String}
    {s : FieldSchema} {raw : Value} {e : String} (value : Value)
    (hs : d.Schema.lookup k = some s) (hr : d.Raw.lookup k = some raw)
    (he : dec.decodeAs s.Typ raw = some (.error e)) :
    validateLoop dec d [(k, value)] = .ret (some (.convertingInput value k)) := by
  have ht : s.Typ.recognised = true := (decodeAs_recognised dec s.Typ raw).2 ⟨_, he⟩
  rw [validateLoop_cons, hs]
  simp [ht, getPrimitive_error hr he]

theorem validateLoop_single_unrecognised (dec : WeakDecoder) {d : FieldData} {k : String}
    {s : FieldSchema} (value : Value)
    (hs : d.Schema.lookup k = some s) (ht : s.Typ.recognised = false) :
    validateLoop dec d [(k, value)] = .ret (some (.unknownFieldType s.Typ k)) := by
  rw [validateLoop_cons, hs]
  simp [ht]

theorem not_mem_of_lookup_none {β : Type} {k : String} {l : List (String × β)}
    (h : l.lookup k = none) : ∀ e ∈ l, e.1 ≠ k := by
  rintro ⟨k1, v1⟩ he rfl
  obtain ⟨w, hw⟩ := lookup_of_mem he
  rw [h] at hw
  cases hw

/-! ## Validation order, unknown keys, error contents, typed results -/

/-- C11: whatever the order in which the entries of Raw are visited, an error
of Validate identifies a key f that is in Raw and in Schema and that offends:
either Schema[f] has a recognised type and Raw[f] does not coerce, and the
error carries f and Raw[f], or Schema[f] has an unrecognised type, and the
error carries f and that type. Whether an error is returned at all is the same
for every order, and the loop stops at the first error. -/
theorem C11_Validate_reports_offending_field (dec : WeakDecoder) (d : FieldData)
    (order : List (String × Value)) (hp : order.Perm d.Raw) (hm : d.rawIsMap) :
    (∀ err, ValidateIn dec d order = .ret (some err) →
      ∃ f raw s, d.Raw.lookup f = some raw ∧ d.Schema.lookup f = some s ∧
        ((s.Typ.recognised = true ∧ dec.coerces s.Typ raw = false ∧
            err = .convertingInput raw f) ∨
          (s.Typ.recognised = false ∧ err = .unknownFieldType s.Typ f))) ∧
    ((∃ err, ValidateIn dec d order = .ret (some err)) ↔
      (∃ err, Validate dec d = .ret (some err))) ∧
    (∀ l1 l2 err, order = l1 ++ l2 → ValidateIn dec d l1 = .ret (some err) →
      ValidateIn dec d order = .ret (some err)) ∧
    ValidateIn dec d d.Raw = Validate dec d := by
  refine ⟨?_, ?_, ?_, rfl⟩
  · intro err h
    obtain ⟨f, value, s, hmem, hs, hcase⟩ := validateLoop_error_mem h
    have hl : d.Raw.lookup f = some value := lookup_of_mem_nodup (hp.mem_iff.1 hmem) hm
    refine ⟨f, value, s, hl, hs, ?_⟩
    rcases hcase with ⟨ht, ⟨raw, hr, hc⟩, he⟩ | ⟨ht, he⟩
    · rw [hl] at hr
      cases hr
      exact Or.inl ⟨ht, hc, he⟩
    · exact Or.inr ⟨ht, he⟩
  · unfold ValidateIn Validate
    rw [validateLoop_error_iff, validateLoop_error_iff, not_iff_not,
      validateLoop_none_iff, validateLoop_none_iff]
    constructor
    · intro h e he
      exact h e (hp.mem_iff.2 he)
    · intro h e he
      exact h e (hp.mem_iff.1 he)
  · intro l1 l2 err ho h
    unfold ValidateIn at h ⊢
    rw [ho, validateLoop_append, h]

/-- C11 on a record with two offending fields, visited last entry first. -/
theorem C11_Validate_reports_offending_field_witness :
    (∃ f raw s, exTwoBad.Raw.lookup f = some raw ∧ exTwoBad.Schema.lookup f = some s ∧
        ((s.Typ.recognised = true ∧ sampleDecoder.coerces s.Typ raw = false ∧
            GoError.convertingInput (.str "x") "b" = .convertingInput raw f) ∨
          (s.Typ.recognised = false ∧
            GoError.convertingInput (.str "x") "b" = .unknownFieldType s.Typ f))) ∧
    ((∃ err, ValidateIn sampleDecoder exTwoBad [("b", .str "x"), ("a", .list [])]
        = .ret (some err)) ↔
      (∃ err, Validate sampleDecoder exTwoBad = .ret (some err))) :=
  ⟨(C11_Validate_reports_offending_field sampleDecoder exTwoBad
      [("b", .str "x"), ("a", .list [])] (List.Perm.swap _ _ _)
      (by simp [FieldData.rawIsMap, exTwoBad])).1 _ rfl,
   (C11_Validate_reports_offending_field sampleDecoder exTwoBad
      [("b", .str "x"), ("a", .list [])] (List.Perm.swap _ _ _)
      (by simp [FieldData.rawIsMap, exTwoBad])).2.1⟩

/-- C12: a Raw key that Schema does not know is ignored everywhere. Setting
such a key in Raw, or deleting it from Raw, changes neither whether Validate
succeeds nor what GetOkErr, GetOk and Get give for any key. Schema
{"name": String} with Raw {"other": 1} validates without error. -/
theorem C12_unknown_raw_keys_ignored (dec : WeakDecoder) (d : FieldData) (u : String)
    (v : Value) (hu : d.Schema.lookup u = none) :
    (∀ k, GetOkErr dec (d.setRaw u v) k = GetOkErr dec d k ∧
      GetOk dec (d.setRaw u v) k = GetOk dec d k ∧ Get dec (d.setRaw u v) k = Get dec d k) ∧
    (Validate dec (d.setRaw u v) = .ret none ↔ Validate dec d = .ret none) ∧
    (∀ k, GetOkErr dec (d.deleteRaw u) k = GetOkErr dec d k ∧
      GetOk dec (d.deleteRaw u) k = GetOk dec d k ∧ Get dec (d.deleteRaw u) k = Get dec d k) ∧
    (Validate dec (d.deleteRaw u) = .ret none ↔ Validate dec d = .ret none) ∧
    Validate dec exName = .ret none := by
  have hne : ∀ k s, d.Schema.lookup k = some s → k ≠ u := by
    rintro k s hs rfl
    rw [hu] at hs
    cases hs
  have hset : ∀ k s, d.Schema.lookup k = some s →
      d.Raw.lookup k = (d.setRaw u v).Raw.lookup k := by
    intro k s hs
    have hb : (k == u) = false := by simpa using hne k s hs
    show _ = List.lookup k ((u, v) :: d.Raw.filter (fun e => e.1 != u))
    simp only [List.lookup, hb]
    exact (lookup_filter_ne d.Raw (hne k s hs)).symm
  have hdel : ∀ k s, d.Schema.lookup k = some s →
      d.Raw.lookup k = (d.deleteRaw u).Raw.lookup k := by
    intro k s hs
    exact (lookup_filter_ne d.Raw (hne k s hs)).symm
  have hS1 : (d.setRaw u v).Schema = d.Schema := rfl
  have hS2 : (d.deleteRaw u).Schema = d.Schema := rfl
  exact ⟨fun k => getters_congr dec hS1 hset k, Validate_congr dec hS1 hset,
    fun k => getters_congr dec hS2 hdel k, Validate_congr dec hS2 hdel, rfl⟩

/-- C12 at Schema {"name": String}, Raw {"other": 1}: dropping "other", or
setting one more unknown key, leaves GetOk("name") and Validate as they were. -/
theorem C12_unknown_raw_keys_ignored_witness :
    GetOk sampleDecoder (exName.deleteRaw "other") "name" = GetOk sampleDecoder exName "name" ∧
    (Validate sampleDecoder (exName.setRaw "extra" (.list [])) = .ret none ↔
      Validate sampleDecoder exName = .ret none) ∧
    Validate sampleDecoder exName = .ret none :=
  ⟨((C12_unknown_raw_keys_ignored sampleDecoder exName "other" (.int 1) rfl).2.2.1 "name").2.1,
   (C12_unknown_raw_keys_ignored sampleDecoder exName "extra" (.list []) rfl).2.1,
   (C12_unknown_raw_keys_ignored sampleDecoder exName "extra" (.list []) rfl).2.2.2.2⟩

/-- C13, as stated, fails: the Int field "count" holds a list, which does not
convert. Validate returns the error built from the field name and the raw
value; GetOkErr("count") returns the error of the decoder, which is not that
error and is the same error for a field of another name. -/
theorem C13_GetOkErr_error_counterexample :
    exBadCount.Schema.lookup "count" = some { Typ := .TypeInt, Default := .nil } ∧
    exBadCount.Raw.lookup "count" = some (.list []) ∧
    sampleDecoder.coerces .TypeInt (.list []) = false ∧
    Validate sampleDecoder exBadCount = .ret (some (.convertingInput (.list []) "count")) ∧
    GetOkErr sampleDecoder exBadCount "count"
      = .ret (.nil, true, some (.decode "expected type int")) ∧
    GetOkErr sampleDecoder exBadCount "count"
      ≠ .ret (.nil, true, some (.convertingInput (.list []) "count")) ∧
    GetOkErr sampleDecoder (single "size" .TypeInt (.list [])) "size"
      = GetOkErr sampleDecoder exBadCount "count" := by
  refine ⟨rfl, rfl, rfl, rfl, rfl, ?_, rfl⟩
  rw [show GetOkErr sampleDecoder exBadCount "count"
    = .ret (.nil, true, some (.decode "expected type int")) from rfl]
  intro h
  cases h

/-- C13, amended: for a Schema key k of a recognised type whose raw value does
not coerce, GetOkErr(k) returns present = true and the error of the decoder
for Raw[k], passed on unchanged: the same error under any other field name.
Validate returns an error, which is either built from a field and the raw
value of an entry of Raw or names a field of unrecognised type; when k is the
only Schema key in Raw it is the error built from k and Raw[k]. -/
theorem C13_conversion_error_contents (dec : WeakDecoder) (d : FieldData) (k : String)
    (s : FieldSchema) (raw : Value) (e : String) (hs : d.Schema.lookup k = some s)
    (hr : d.Raw.lookup k = some raw) (he : dec.decodeAs s.Typ raw = some (.error e)) :
    GetOkErr dec d k = .ret (.nil, true, some (.decode e)) ∧
    (∀ k2, GetOkErr dec (single k2 s.Typ raw) k2 = .ret (.nil, true, some (.decode e))) ∧
    (∃ err, Validate dec d = .ret (some err)) ∧
    (∀ err, Validate dec d = .ret (some err) →
      (∃ f value, (f, value) ∈ d.Raw ∧ err = .convertingInput value f) ∨
        (∃ f t, t.recognised = false ∧ err = .unknownFieldType t f)) ∧
    ((∀ x ∈ d.Raw, x = (k, raw) ∨ d.Schema.lookup x.1 = none) →
      Validate dec d = .ret (some (.convertingInput raw k))) := by
  have ht : s.Typ.recognised = true := (decodeAs_recognised dec s.Typ raw).2 ⟨_, he⟩
  have hc : dec.coerces s.Typ raw = false := by simp [WeakDecoder.coerces, he]
  refine ⟨?_, ?_, Validate_error_of_rejected hs hr hc, ?_, ?_⟩
  · rw [GetOkErr_of_schema hs ht]
    exact getPrimitive_error hr he
  · intro k2
    have hs2 : (single k2 s.Typ raw).Schema.lookup k2
        = some { Typ := s.Typ, Default := .nil } := by
      simp [single, List.lookup]
    have hr2 : (single k2 s.Typ raw).Raw.lookup k2 = some raw := by
      simp [single, List.lookup]
    rw [GetOkErr_of_schema hs2 ht]
    exact getPrimitive_error hr2 he
  · intro err h
    obtain ⟨f, value, s1, hmem, _, hcase⟩ := validateLoop_error_mem h
    rcases hcase with ⟨_, _, herr⟩ | ⟨ht1, herr⟩
    · exact Or.inl ⟨f, value, hmem, herr⟩
    · exact Or.inr ⟨f, s1.Typ, ht1, herr⟩
  · intro honly
    refine validateLoop_uniform d.Raw (fun x hx => ?_)
      ⟨(k, raw), mem_of_lookup hr, validateLoop_single_rejected raw hs hr he⟩
    rcases honly x hx with h | h
    · rw [h]
      exact Or.inr (validateLoop_single_rejected raw hs hr he)
    · exact Or.inl h

/-- C13, amended, at the Int field "count" holding a list. -/
theorem C13_conversion_error_contents_witness :
    GetOkErr sampleDecoder exBadCount "count"
      = .ret (.nil, true, some (.decode "expected type int")) ∧
    Validate sampleDecoder exBadCount = .ret (some (.convertingInput (.list []) "count")) :=
  ⟨(C13_conversion_error_contents sampleDecoder exBadCount "count" _ _ _ rfl rfl rfl).1,
   (C13_conversion_error_contents sampleDecoder exBadCount "count" _ _ _ rfl rfl rfl).2.2.2.2
     (by intro x hx; simp [exBadCount] at hx; exact Or.inl hx)⟩

/-- C14: when a key f present in Raw has a Schema descriptor of a type outside
the four, Validate returns an error, and when f is the only key of Raw that
Schema knows, that error is the unknown-type error naming f and the type. A
Schema key of unrecognised type that Raw does not hold has no effect on
Validate: the result is the one obtained without that key in Schema. -/
theorem C14_Validate_unknown_type (dec : WeakDecoder) (d : FieldData) (f : String)
    (s : FieldSchema) (hs : d.Schema.lookup f = some s) (ht : s.Typ.recognised = false) :
    (∀ raw, d.Raw.lookup f = some raw →
      (∃ err, Validate dec d = .ret (some err)) ∧
      ((∀ x ∈ d.Raw, x.1 ≠ f → d.Schema.lookup x.1 = none) →
        Validate dec d = .ret (some (.unknownFieldType s.Typ f)))) ∧
    (d.Raw.lookup f = none → Validate dec (d.deleteSchema f) = Validate dec d) := by
  refine ⟨fun raw hr => ⟨?_, fun honly => ?_⟩, fun hr => ?_⟩
  · exact Validate_error_of_rejected hs hr (coerces_of_unrecognised dec raw ht)
  · refine validateLoop_uniform d.Raw (fun x hx => ?_)
      ⟨(f, raw), mem_of_lookup hr, validateLoop_single_unrecognised dec raw hs ht⟩
    obtain ⟨k1, v1⟩ := x
    by_cases hk : k1 = f
    · subst hk
      exact Or.inr (validateLoop_single_unrecognised dec v1 hs ht)
    · exact Or.inl (honly (k1, v1) hx hk)
  · exact validateLoop_deleteSchema dec d f d.Raw (not_mem_of_lookup_none hr)

/-- C14 at a field "blob" of unrecognised type: set in Raw, then absent. -/
theorem C14_Validate_unknown_type_witness :
    Validate sampleDecoder exBlobSet
      = .ret (some (.unknownFieldType (.unrecognised 0) "blob")) ∧
    Validate sampleDecoder (exBlob.deleteSchema "blob") = Validate sampleDecoder exBlob :=
  ⟨((C14_Validate_unknown_type sampleDecoder exBlobSet "blob" _ rfl rfl).1 _ rfl).2
      (by intro x hx hne; simp [exBlobSet] at hx; exact absurd (congrArg Prod.fst hx) hne),
   (C14_Validate_unknown_type sampleDecoder exBlob "blob" _ rfl rfl).2 rfl⟩

/-- C15: when GetOkErr(k) returns (v, true, nil), k is a Schema key of one of
the four types and v is a value of the declared type: a bool for Bool, an int
for Int, a string for String, a string-keyed mapping for Map, whatever the raw
value was. -/
theorem C15_result_has_declared_type (dec : WeakDecoder) (d : FieldData) (k : String)
    (v : Value) (h : GetOkErr dec d k = .ret (v, true, none)) :
    ∃ s, d.Schema.lookup k = some s ∧ v.hasType s.Typ = true ∧
      (s.Typ = .TypeBool → ∃ b, v = .bool b) ∧ (s.Typ = .TypeInt → ∃ n, v = .int n) ∧
      (s.Typ = .TypeString → ∃ str, v = .str str) ∧ (s.Typ = .TypeMap → ∃ m, v = .map m) := by
  cases hs : d.Schema.lookup k with
  | none => simp [GetOkErr, hs] at h
  | some s =>
    have hty : v.hasType s.Typ = true := by
      rcases getters_cases dec hs with ⟨v1, ok, err, h1, _, _⟩ | ⟨_, _, h1, _, _⟩ |
          ⟨raw, v1, _, hdec, _, h1, _, _⟩
      · rw [h1] at h
        simp at h
      · rw [h1] at h
        simp at h
      · rw [h1] at h
        simp at h
        subst h
        exact decodeAs_ok_hasType hdec
    refine ⟨s, rfl, hty, ?_, ?_, ?_, ?_⟩ <;> intro hT <;> rw [hT] at hty <;>
      cases v <;> simp [Value.hasType] at hty ⊢

/-- C15 at an Int field read from the integer 7. -/
theorem C15_result_has_declared_type_witness :
    ∃ s, exCount.Schema.lookup "count" = some s ∧ (Value.int 7).hasType s.Typ = true :=
  (C15_result_has_declared_type sampleDecoder exCount "count" (.int 7) rfl).imp
    (fun _ h => ⟨h.1, h.2.1⟩)

/-! ## The sample decoder reads back decimal renderings -/

theorem digitChar_isDigit (m : Nat) (h : m < 10) :
    (Nat.digitChar m).isDigit = true ∧ (Nat.digitChar m).toNat - 48 = m := by
  interval_cases m <;> exact ⟨rfl, rfl⟩

theorem parseDigits_toDigitsCore (fuel : Nat) :
    ∀ (n : Nat) (ds : List Char), n < fuel →
      parseDigits (Nat.toDigitsCore 10 fuel n ds) 0 = parseDigits ds n := by
  induction fuel with
  | zero => intro n ds h; omega
  | succ fuel ih =>
    intro n ds h
    obtain ⟨hd, hv⟩ := digitChar_isDigit (n % 10) (Nat.mod_lt _ (by decide))
    unfold Nat.toDigitsCore
    by_cases h0 : n / 10 = 0
    · simp only [h0, if_true]
      have hn : n % 10 = n := Nat.mod_eq_of_lt (by omega)
      simp only [parseDigits, hd, if_true, hv]
      rw [hn]; simp
    · simp only [h0, if_false]
      rw [ih (n / 10) _ (by omega)]
      simp only [parseDigits, hd, if_true, hv]
      congr 1
      omega

theorem toDigitsCore_ne_nil_of (fuel : Nat) :
    ∀ (n : Nat) (ds : List Char), ds ≠ [] → Nat.toDigitsCore 10 fuel n ds ≠ [] := by
  induction fuel with
  | zero => intro n ds h; simpa [Nat.toDigitsCore] using h
  | succ fuel ih =>
    intro n ds _
    unfold Nat.toDigitsCore
    by_cases h0 : n / 10 = 0
    · simp [h0]
    · simp only [h0, if_false]
      exact ih _ _ (List.cons_ne_nil _ _)

theorem toDigits_ne_nil (n : Nat) : Nat.toDigits 10 n ≠ [] := by
  unfold Nat.toDigits Nat.toDigitsCore
  by_cases h0 : n / 10 = 0
  · simp [h0]
  · simp only [h0, if_false]
    exact toDigitsCore_ne_nil_of _ _ _ (List.cons_ne_nil _ _)

theorem parseDigits_toDigits (n : Nat) : parseDigits (Nat.toDigits 10 n) 0 = some n := by
  unfold Nat.toDigits
  rw [parseDigits_toDigitsCore (n + 1) n [] (Nat.lt_succ_self n)]
  rfl

theorem parseInt_of_digits (s : String) (n : Nat) (h : parseDigits s.data 0 = some n)
    (hne : s.data ≠ []) : parseInt s = some (n : Int) := by
  unfold parseInt
  split
  · rename_i heq; exact absurd heq hne
  · rename_i c cs heq
    rw [heq] at h
    simp [parseDigits, Char.isDigit] at h
  · rename_i c cs heq
    rw [heq] at h
    simp [parseDigits, Char.isDigit] at h
  · rw [h]; rfl

theorem parseInt_toString (n : Int) : parseInt (toString n) = some n := by
  cases n with
  | ofNat m =>
    show parseInt (Nat.repr m) = some (Int.ofNat m)
    exact parseInt_of_digits _ m (parseDigits_toDigits m) (toDigits_ne_nil m)
  | negSucc m =>
    show parseInt ("-" ++ Nat.repr (m + 1)) = some (Int.negSucc m)
    unfold parseInt
    have hd : ("-" ++ Nat.repr (m + 1)).data = '-' :: Nat.toDigits 10 (m + 1) := by
      rw [String.data_append]; rfl
    rw [hd]
    cases hL : Nat.toDigits 10 (m + 1) with
    | nil => exact absurd hL (toDigits_ne_nil _)
    | cons c cs =>
      simp only []
      rw [← hL, parseDigits_toDigits]
      rfl

/-! ## Round trips, weak coercion of strings, default substitution -/

/-- C16: with a backend that returns a boolean, an integer, a string and the
empty mapping unchanged when decoded to their own type, a field declared with
the matching type whose raw value is such a value is returned unchanged by
GetOkErr (present = true, nil error), by GetOk and by Get. -/
theorem C16_round_trip (dec : WeakDecoder) (hdec : dec.RoundTrips) (d : FieldData)
    (k : String) (s : FieldSchema) (hs : d.Schema.lookup k = some s) :
    (∀ b, s.Typ = .TypeBool → d.Raw.lookup k = some (.bool b) →
      GetOkErr dec d k = .ret (.bool b, true, none) ∧ GetOk dec d k = .ret (.bool b, true) ∧
        Get dec d k = .ret (.bool b)) ∧
    (∀ n, s.Typ = .TypeInt → d.Raw.lookup k = some (.int n) →
      GetOkErr dec d k = .ret (.int n, true, none) ∧ GetOk dec d k = .ret (.int n, true) ∧
        Get dec d k = .ret (.int n)) ∧
    (∀ str, s.Typ = .TypeString → d.Raw.lookup k = some (.str str) →
      GetOkErr dec d k = .ret (.str str, true, none) ∧ GetOk dec d k = .ret (.str str, true) ∧
        Get dec d k = .ret (.str str)) ∧
    (s.Typ = .TypeMap → d.Raw.lookup k = some (.map (some [])) →
      GetOkErr dec d k = .ret (.map (some []), true, none) ∧
        GetOk dec d k = .ret (.map (some []), true) ∧ Get dec d k = .ret (.map (some []))) := by
  refine ⟨fun b hT hr => ?_, fun n hT hr => ?_, fun str hT hr => ?_, fun hT hr => ?_⟩
  · have hv : dec.decodeAs s.Typ (.bool b) = some (.ok (.bool b)) := by
      simp [hT, WeakDecoder.decodeAs, hdec.bool, Except.map]
    obtain ⟨h1, h2, h3⟩ := getters_of_decoded hs hr hv
    exact ⟨h3, h2, h1⟩
  · have hv : dec.decodeAs s.Typ (.int n) = some (.ok (.int n)) := by
      simp [hT, WeakDecoder.decodeAs, hdec.int, Except.map]
    obtain ⟨h1, h2, h3⟩ := getters_of_decoded hs hr hv
    exact ⟨h3, h2, h1⟩
  · have hv : dec.decodeAs s.Typ (.str str) = some (.ok (.str str)) := by
      simp [hT, WeakDecoder.decodeAs, hdec.str, Except.map]
    obtain ⟨h1, h2, h3⟩ := getters_of_decoded hs hr hv
    exact ⟨h3, h2, h1⟩
  · have hv : dec.decodeAs s.Typ (.map (some [])) = some (.ok (.map (some []))) := by
      simp [hT, WeakDecoder.decodeAs, hdec.emptyMap, Except.map]
    obtain ⟨h1, h2, h3⟩ := getters_of_decoded hs hr hv
    exact ⟨h3, h2, h1⟩

/-- C16 at true, 42, "x" and the empty mapping, and at false under a default
of true. -/
theorem C16_round_trip_witness :
    sampleDecoder.RoundTrips ∧
    Get sampleDecoder (single "k" .TypeBool (.bool true)) "k" = .ret (.bool true) ∧
    Get sampleDecoder (single "k" .TypeInt (.int 42)) "k" = .ret (.int 42) ∧
    Get sampleDecoder (single "k" .TypeString (.str "x")) "k" = .ret (.str "x") ∧
    Get sampleDecoder (single "k" .TypeMap (.map (some []))) "k" = .ret (.map (some [])) ∧
    GetOk sampleDecoder exOff "on" = .ret (.bool false, true) :=
  have hdec : sampleDecoder.RoundTrips := ⟨fun _ => rfl, fun _ => rfl, fun _ => rfl, rfl⟩
  ⟨hdec,
   ((C16_round_trip sampleDecoder hdec (single "k" .TypeBool (.bool true)) "k" _ rfl).1
      true rfl rfl).2.2,
   ((C16_round_trip sampleDecoder hdec (single "k" .TypeInt (.int 42)) "k" _ rfl).2.1
      42 rfl rfl).2.2,
   ((C16_round_trip sampleDecoder hdec (single "k" .TypeString (.str "x")) "k" _ rfl).2.2.1
      "x" rfl rfl).2.2,
   ((C16_round_trip sampleDecoder hdec (single "k" .TypeMap (.map (some []))) "k" _ rfl).2.2.2
      rfl rfl).2.2,
   ((C16_round_trip sampleDecoder hdec exOff "on" _ rfl).1 false rfl rfl).2.1⟩

/-- C17: in an Int field whose raw value is the decimal rendering of an
integer n, a backend that turns that string into n makes Get, GetOk and
GetOkErr yield the integer n; the sample backend does so for every n. With
Schema {"count": Int} and Raw {"count": "7"}, Get("count") is 7. -/
theorem C17_string_to_int (dec : WeakDecoder) (d : FieldData) (k : String) (s : FieldSchema)
    (n : Int) (hs : d.Schema.lookup k = some s) (hT : s.Typ = .TypeInt)
    (hr : d.Raw.lookup k = some (.str (toString n)))
    (hdec : dec.toInt (.str (toString n)) = .ok n) :
    (Get dec d k = .ret (.int n) ∧ GetOk dec d k = .ret (.int n, true) ∧
      GetOkErr dec d k = .ret (.int n, true, none)) ∧
    sampleDecoder.toInt (.str (toString n)) = .ok n ∧
    Get sampleDecoder (single "count" .TypeInt (.str "7")) "count" = .ret (.int 7) := by
  refine ⟨?_, ?_, rfl⟩
  · have hv : dec.decodeAs s.Typ (.str (toString n)) = some (.ok (.int n)) := by
      simp [hT, WeakDecoder.decodeAs, hdec, Except.map]
    exact getters_of_decoded hs hr hv
  · show (match parseInt (toString n) with
        | some m => Except.ok m
        | none => Except.error "cannot parse as int") = Except.ok n
    rw [parseInt_toString]

/-- C17 at Schema {"count": Int}, Raw {"count": "7"}, and at "-12". -/
theorem C17_string_to_int_witness :
    Get sampleDecoder (single "count" .TypeInt (.str "7")) "count" = .ret (.int 7) ∧
    GetOk sampleDecoder (single "count" .TypeInt (.str "-12")) "count"
      = .ret (.int (-12), true) :=
  ⟨(C17_string_to_int sampleDecoder (single "count" .TypeInt (.str "7")) "count" _ 7
      rfl rfl rfl rfl).1.1,
   (C17_string_to_int sampleDecoder (single "count" .TypeInt (.str "-12")) "count" _ (-12)
      rfl rfl (by rw [show toString (-12 : Int) = "-12" from by decide]; rfl)
      (by rw [show toString (-12 : Int) = "-12" from by decide]; rfl)).1.2.1⟩

/-- C18, as stated, fails: the Int field "count" holds "abc", which the backend
rejects, but Raw also holds a list for the Int field "a", visited first.
Validate returns the conversion error naming "a" and its raw value, not the
one naming "count". -/
theorem C18_Validate_names_other_field_counterexample :
    exTwoCount.Schema.lookup "count" = some { Typ := .TypeInt, Default := .nil } ∧
    exTwoCount.Raw.lookup "count" = some (.str "abc") ∧
    sampleDecoder.toInt (.str "abc") = .error "cannot parse as int" ∧
    Validate sampleDecoder exTwoCount = .ret (some (.convertingInput (.list []) "a")) ∧
    Validate sampleDecoder exTwoCount ≠ .ret (some (.convertingInput (.str "abc") "count")) := by
  refine ⟨rfl, rfl, rfl, rfl, ?_⟩
  rw [show Validate sampleDecoder exTwoCount
    = .ret (some (.convertingInput (.list []) "a")) from rfl]
  intro h
  cases h

/-- C18, amended: in an Int field f whose raw value is a string that the
backend does not read as a number, GetOkErr(f) returns present = true with the
error of the backend, and Validate returns an error. That error is the
conversion error naming f and the raw string when every entry of Raw visited
before f passes, in particular when f is the only key of Raw that Schema
knows. The sample backend rejects every string that is not a decimal integer;
with Schema {"count": Int} and Raw {"count": "abc"} Validate returns the
conversion error naming "count". -/
theorem C18_non_numeric_string_rejected (dec : WeakDecoder) (d : FieldData) (f : String)
    (s : FieldSchema) (str e : String) (hs : d.Schema.lookup f = some s)
    (hT : s.Typ = .TypeInt) (hr : d.Raw.lookup f = some (.str str))
    (he : dec.toInt (.str str) = .error e) :
    GetOkErr dec d f = .ret (.nil, true, some (.decode e)) ∧
    (∃ err, Validate dec d = .ret (some err)) ∧
    (∀ l1 l2, d.Raw = l1 ++ (f, .str str) :: l2 → ValidateIn dec d l1 = .ret none →
      Validate dec d = .ret (some (.convertingInput (.str str) f))) ∧
    ((∀ x ∈ d.Raw, x = (f, .str str) ∨ d.Schema.lookup x.1 = none) →
      Validate dec d = .ret (some (.convertingInput (.str str) f))) ∧
    (parseInt str = none → sampleDecoder.toInt (.str str) = .error "cannot parse as int") ∧
    Validate sampleDecoder (single "count" .TypeInt (.str "abc"))
      = .ret (some (.convertingInput (.str "abc") "count")) := by
  have hv : dec.decodeAs s.Typ (.str str) = some (.error e) := by
    simp [hT, WeakDecoder.decodeAs, he, Except.map]
  have ht : s.Typ.recognised = true := by rw [hT]; rfl
  have hc : dec.coerces s.Typ (.str str) = false := by simp [WeakDecoder.coerces, hv]
  have hone : validateLoop dec d [(f, .str str)]
      = .ret (some (.convertingInput (.str str) f)) :=
    validateLoop_single_rejected _ hs hr hv
  refine ⟨?_, Validate_error_of_rejected hs hr hc, ?_, ?_, ?_, rfl⟩
  · rw [GetOkErr_of_schema hs ht]
    exact getPrimitive_error hr hv
  · intro l1 l2 hraw h1
    unfold ValidateIn at h1
    unfold Validate
    rw [hraw, validateLoop_append, h1]
    have h2 := validateLoop_append dec d [(f, Value.str str)] l2
    rw [List.singleton_append] at h2
    simp only [h2, hone]
  · intro honly
    refine validateLoop_uniform d.Raw (fun x hx => ?_) ⟨(f, .str str), mem_of_lookup hr, hone⟩
    rcases honly x hx with h | h
    · rw [h]
      exact Or.inr hone
    · exact Or.inl h
  · intro hp
    show (match parseInt str with
        | some m => Except.ok m
        | none => Except.error "cannot parse as int") = _
    rw [hp]

/-- C18, amended, at Schema {"count": Int}, Raw {"count": "abc"}, and at a
record with a second offending field that is visited after "count". -/
theorem C18_non_numeric_string_rejected_witness :
    GetOkErr sampleDecoder (single "count" .TypeInt (.str "abc")) "count"
      = .ret (.nil, true, some (.decode "cannot parse as int")) ∧
    Validate sampleDecoder (single "count" .TypeInt (.str "abc"))
      = .ret (some (.convertingInput (.str "abc") "count")) ∧
    Validate sampleDecoder exCountFirst
      = .ret (some (.convertingInput (.str "abc") "count")) ∧
    GetOkErr sampleDecoder exTwoCount "count"
      = .ret (.nil, true, some (.decode "cannot parse as int")) :=
  ⟨(C18_non_numeric_string_rejected sampleDecoder (single "count" .TypeInt (.str "abc"))
      "count" _ "abc" _ rfl rfl rfl rfl).1,
   (C18_non_numeric_string_rejected sampleDecoder (single "count" .TypeInt (.str "abc"))
      "count" _ "abc" _ rfl rfl rfl rfl).2.2.2.1
      (by intro x hx; simp [single] at hx; exact Or.inl hx),
   (C18_non_numeric_string_rejected sampleDecoder exCountFirst
      "count" _ "abc" _ rfl rfl rfl rfl).2.2.1 [] [("a", .list [])] rfl rfl,
   (C18_non_numeric_string_rejected sampleDecoder exTwoCount
      "count" _ "abc" _ rfl rfl rfl rfl).1⟩

/-- C19, as stated, fails when a nil result is a coercion that produced a nil
value: the Map field "tags" declares a default and its raw value is nil.
GetOkErr returns no error, present = true and the nil mapping; GetOk returns
that nil mapping with true, not the declared default. -/
theorem C19_GetOk_nil_mapping_counterexample :
    exNilMapDefault.Schema.lookup "tags"
      = some { Typ := .TypeMap, Default := .map (some [("a", .int 1)]) } ∧
    GetOkErr sampleDecoder exNilMapDefault "tags" = .ret (.map none, true, none) ∧
    (Value.map none).isNilValue = true ∧
    FieldSchema.DefaultOrZero { Typ := .TypeMap, Default := .map (some [("a", .int 1)]) }
      = .ret (.map (some [("a", .int 1)])) ∧
    GetOk sampleDecoder exNilMapDefault "tags" = .ret (.map none, true) ∧
    GetOk sampleDecoder exNilMapDefault "tags" ≠ .ret (.map (some [("a", .int 1)]), true) := by
  refine ⟨rfl, rfl, rfl, rfl, rfl, ?_⟩
  rw [show GetOk sampleDecoder exNilMapDefault "tags" = .ret (.map none, true) from rfl]
  intro h
  cases h

/-- C19, amended: for a key in Schema, in every case without error GetOk
returns the value and the present flag of GetOkErr unchanged. A value that is
nil as a Go value and read with present = true, the nil mapping, is returned
as it is, whatever default is declared; a key absent from Raw yields nil with
present = false. The guard of the substitution, present = true with the nil
interface as value, is never met by what GetOkErr returns. -/
theorem C19_GetOk_passes_value_unchanged (dec : WeakDecoder) (d : FieldData) (k : String)
    (s : FieldSchema) (hs : d.Schema.lookup k = some s) :
    (∀ v ok, GetOkErr dec d k = .ret (v, ok, none) → GetOk dec d k = .ret (v, ok)) ∧
    (∀ v, GetOkErr dec d k = .ret (v, true, none) → v.isNilValue = true →
      v = .map none ∧ GetOk dec d k = .ret (.map none, true)) ∧
    (∀ raw, s.Typ = .TypeMap → d.Raw.lookup k = some raw → dec.toMap raw = .ok none →
      GetOkErr dec d k = .ret (.map none, true, none) ∧
        GetOk dec d k = .ret (.map none, true)) ∧
    (s.Typ.recognised = true → d.Raw.lookup k = none →
      GetOkErr dec d k = .ret (.nil, false, none) ∧ GetOk dec d k = .ret (.nil, false)) ∧
    GetOkErr dec d k ≠ .ret (.nil, true, none) := by
  have hpass : ∀ v ok, GetOkErr dec d k = .ret (v, ok, none) → GetOk dec d k = .ret (v, ok) ∧
      (ok = true → v.isNil = false) := by
    intro v ok h
    rcases getters_cases dec hs with ⟨v1, ok1, err, h1, _, _⟩ | ⟨_, _, h1, h2, _⟩ |
        ⟨raw, v1, _, _, hv1, h1, h2, _⟩
    · rw [h1] at h
      simp at h
    · rw [h1] at h
      simp at h
      obtain ⟨hv, hok⟩ := h
      subst hv
      subst hok
      exact ⟨h2, fun hc => by cases hc⟩
    · rw [h1] at h
      simp at h
      obtain ⟨hv, hok⟩ := h
      subst hv
      subst hok
      exact ⟨h2, fun _ => hv1⟩
  refine ⟨fun v ok h => (hpass v ok h).1, ?_, ?_, ?_, ?_⟩
  · intro v h hn
    have hnn := (hpass v true h).2 rfl
    have hv : v = .map none := by
      cases v with
      | map m => cases m <;> simp_all [Value.isNilValue]
      | _ => simp_all [Value.isNilValue, Value.isNil]
    subst hv
    exact ⟨rfl, (hpass _ true h).1⟩
  · intro raw hT hr hdec
    have hv : dec.decodeAs s.Typ raw = some (.ok (.map none)) := by
      simp [hT, WeakDecoder.decodeAs, hdec, Except.map]
    obtain ⟨_, h2, h3⟩ := getters_of_decoded hs hr hv
    exact ⟨h3, h2⟩
  · intro ht hr
    obtain ⟨_, h2, h3⟩ := getters_of_absent dec hs ht hr
    exact ⟨h3, h2⟩
  · intro h
    have := (hpass _ true h).2 rfl
    simp [Value.isNil] at this

/-- C19, amended, at a Map field with a declared default whose raw value is
nil, and at a String field that Raw does not hold. -/
theorem C19_GetOk_passes_value_unchanged_witness :
    GetOk sampleDecoder exNilMapDefault "tags" = .ret (.map none, true) ∧
    GetOk sampleDecoder exOff "on" = .ret (.bool false, true) ∧
    GetOk sampleDecoder exName "name" = .ret (.nil, false) :=
  ⟨((C19_GetOk_passes_value_unchanged sampleDecoder exNilMapDefault "tags" _ rfl).2.2.1
      .nil rfl rfl rfl).2,
   (C19_GetOk_passes_value_unchanged sampleDecoder exOff "on" _ rfl).1 _ _ rfl,
   ((C19_GetOk_passes_value_unchanged sampleDecoder exName "name" _ rfl).2.2.2.1 rfl rfl).2⟩

/-- C20: GetOkErr never returns (nil, true, nil). When it reports present =
true with a nil error, the value is a typed value and not the nil interface,
also when Raw[k] is nil or decodes to a nil mapping; so whenever GetOkErr
returns no error, GetOk returns its value and present flag as they are. -/
theorem C20_no_nil_present_value (dec : WeakDecoder) (d : FieldData) (k : String) :
    GetOkErr dec d k ≠ .ret (.nil, true, none) ∧
    (∀ v, GetOkErr dec d k = .ret (v, true, none) → v.isNil = false) ∧
    (∀ v ok, GetOkErr dec d k = .ret (v, ok, none) → GetOk dec d k = .ret (v, ok)) := by
  have hnil : ∀ v, GetOkErr dec d k = .ret (v, true, none) → v.isNil = false := by
    intro v h
    cases hs : d.Schema.lookup k with
    | none => simp [GetOkErr, hs] at h
    | some s =>
      rcases getters_cases dec hs with ⟨v1, ok, err, h1, _, _⟩ | ⟨_, _, h1, _, _⟩ |
          ⟨raw, v1, _, _, hv1, h1, _, _⟩
      · rw [h1] at h
        simp at h
      · rw [h1] at h
        simp at h
      · rw [h1] at h
        simp at h
        subst h
        exact hv1
  refine ⟨fun h => ?_, hnil, ?_⟩
  · have := hnil _ h
    simp [Value.isNil] at this
  · intro v ok h
    cases hs : d.Schema.lookup k with
    | none => simp [GetOkErr, hs] at h
    | some s =>
      rcases getters_cases dec hs with ⟨v1, ok1, err, h1, _, _⟩ | ⟨_, _, h1, h2, _⟩ |
          ⟨raw, v1, _, _, _, h1, h2, _⟩
      · rw [h1] at h
        simp at h
      · rw [h1] at h
        simp at h
        rw [h2, ← h.1, ← h.2]
      · rw [h1] at h
        simp at h
        rw [h2, ← h.1, ← h.2]

/-- C20 at a Map field whose raw value is nil: the value read is the nil
mapping, which is not the nil interface, and GetOk returns it. -/
theorem C20_no_nil_present_value_witness :
    (Value.map none).isNil = false ∧
    GetOk sampleDecoder exNilMap "tags" = .ret (.map none, true) :=
  ⟨(C20_no_nil_present_value sampleDecoder exNilMap "tags").2.1 (.map none) rfl,
   (C20_no_nil_present_value sampleDecoder exNilMap "tags").2.2 (.map none) true rfl⟩

end Schema
